import Mathlib

/-! Struct declarations generated from a decoded JSON/YAML document (genstruct)

A verification development for `cmd/genstruct/main.go`.  The two mutually
recursive procedures `printStruct` and `printSlice` are embedded as Lean
functions over an explicit model of the decoded value tree and of the
`io.Writer` they write to.
-/

namespace Genstruct

/-! ## Decoded values -/

/-- The numeric dynamic types listed in the first `case` of both type switches. -/
inductive NumKind where
  | float32 | float64
  | int | int8 | int16 | int32 | int64
  | uint | uint8 | uint16 | uint32 | uint64
  deriving DecidableEq, Repr

/-- A decoded value (`interface{}` as produced by the decoders).  A Go map has
no order of its own: a mapping is kept as the list of its entries in the order
in which the `range` loop visits them in the run under study, an order that the
runtime picks and that is not the order of the keys in the document (see
`RangeOrder`).  The payload of a number is never inspected by the program and is
left out. -/
inductive Value where
  | null : Value
  | bool : Bool → Value
  | num : NumKind → Value
  | str : String → Value
  | arr : List Value → Value
  | obj : List (String × Value) → Value

/-- The rendering of a value's dynamic type by the verb `%T`, for the kinds
that reach the `default` branch of a type switch. -/
def Value.goType : Value → String
  | .null => "<nil>"
  | .bool _ => "bool"
  | .num .float32 => "float32"
  | .num .float64 => "float64"
  | .num .int => "int"
  | .num .int8 => "int8"
  | .num .int16 => "int16"
  | .num .int32 => "int32"
  | .num .int64 => "int64"
  | .num .uint => "uint"
  | .num .uint8 => "uint8"
  | .num .uint16 => "uint16"
  | .num .uint32 => "uint32"
  | .num .uint64 => "uint64"
  | .str _ => "string"
  | .arr _ => "[]interface \x7b\x7d"
  | .obj _ => "map[string]interface \x7b\x7d"

/-! ## Errors and writers -/

/-- The `error` values the two procedures can return. -/
inductive Err where
  /-- The value built by `fmt.Errorf` in a `default` branch, given by its message. -/
  | errorf (msg : String) : Err
  /-- The error returned by a `Write` call on the output writer. -/
  | write (e : String) : Err
  deriving DecidableEq, Repr

/-- An `io.Writer`.  `data` is what the writer holds, `history` the payloads of
the `Write` calls it has received (oldest first), and `respond` its behaviour:
on the history and the next payload it answers `none` when it accepts the whole
payload, and `some (n, e)` when it rejects the call with error `e` after having
kept the first `n` characters. -/
structure Sink where
  data : String
  history : List String
  respond : List String → String → Option (Nat × String)

/-- One `Write` call. -/
def Sink.write (o : Sink) (p : String) : Sink × Option String :=
  match o.respond o.history p with
  | none => ({ o with data := o.data ++ p, history := o.history ++ [p] }, none)
  | some (n, e) =>
      ({ o with data := o.data ++ p.take n, history := o.history ++ [p] }, some e)

/-- A fresh `bytes.Buffer`: empty, and it accepts every write. -/
def Sink.buffer : Sink := ⟨"", [], fun _ _ => none⟩

/-- The call `io.Copy(o, &buf)`: `bytes.Buffer.WriteTo` issues a single `Write`
with the whole content, and none at all when the buffer is empty. -/
def ioCopy (o buf : Sink) : Sink × Option String :=
  if buf.data = "" then (o, none) else o.write buf.data

/-! ## Library functions -/

/-- The white space runes above U+007F (`unicode.IsSpace`). -/
def isSpaceWide (r : Char) : Bool :=
  let n := r.toNat
  n == 0x85 || n == 0xA0 || n == 0x1680 || (0x2000 ≤ n && n ≤ 0x200A) ||
    n == 0x2028 || n == 0x2029 || n == 0x202F || n == 0x205F || n == 0x3000

/-- The word separator test of `strings.Title`: in ASCII everything but letters,
digits and the underscore; above ASCII the white space runes. -/
def isSeparator (r : Char) : Bool :=
  if r.toNat ≤ 0x7F then
    !(r.isDigit || r.isLower || r.isUpper || r == '_')
  else isSpaceWide r

/-- The title case entries of the table `unicode.CaseRanges` above U+007F, as
given by the simple title case mappings of the Unicode Character Database
(14.0.0): an entry `(lo, hi, step, target)` maps the runes `lo`, `lo + step`, ...
up to `hi` to `target`, `target + step`, ... -/
def titleRanges : List (Nat × Nat × Nat × Nat) := [
  (0xB5, 0xB5, 1, 0x39C), (0xE0, 0xF6, 1, 0xC0), (0xF8, 0xFE, 1, 0xD8),
  (0xFF, 0xFF, 1, 0x178), (0x101, 0x12F, 2, 0x100), (0x131, 0x131, 1, 0x49),
  (0x133, 0x137, 2, 0x132), (0x13A, 0x148, 2, 0x139), (0x14B, 0x177, 2, 0x14A),
  (0x17A, 0x17E, 2, 0x179), (0x17F, 0x17F, 1, 0x53), (0x180, 0x180, 1, 0x243),
  (0x183, 0x185, 2, 0x182), (0x188, 0x188, 1, 0x187), (0x18C, 0x18C, 1, 0x18B),
  (0x192, 0x192, 1, 0x191), (0x195, 0x195, 1, 0x1F6), (0x199, 0x199, 1, 0x198),
  (0x19A, 0x19A, 1, 0x23D), (0x19E, 0x19E, 1, 0x220), (0x1A1, 0x1A5, 2, 0x1A0),
  (0x1A8, 0x1A8, 1, 0x1A7), (0x1AD, 0x1AD, 1, 0x1AC), (0x1B0, 0x1B0, 1, 0x1AF),
  (0x1B4, 0x1B6, 2, 0x1B3), (0x1B9, 0x1B9, 1, 0x1B8), (0x1BD, 0x1BD, 1, 0x1BC),
  (0x1BF, 0x1BF, 1, 0x1F7), (0x1C4, 0x1C4, 1, 0x1C5), (0x1C6, 0x1C6, 1, 0x1C5),
  (0x1C7, 0x1C7, 1, 0x1C8), (0x1C9, 0x1C9, 1, 0x1C8), (0x1CA, 0x1CA, 1, 0x1CB),
  (0x1CC, 0x1DC, 2, 0x1CB), (0x1DD, 0x1DD, 1, 0x18E), (0x1DF, 0x1EF, 2, 0x1DE),
  (0x1F1, 0x1F1, 1, 0x1F2), (0x1F3, 0x1F5, 2, 0x1F2), (0x1F9, 0x21F, 2, 0x1F8),
  (0x223, 0x233, 2, 0x222), (0x23C, 0x23C, 1, 0x23B), (0x23F, 0x240, 1, 0x2C7E),
  (0x242, 0x242, 1, 0x241), (0x247, 0x24F, 2, 0x246), (0x250, 0x250, 1, 0x2C6F),
  (0x251, 0x251, 1, 0x2C6D), (0x252, 0x252, 1, 0x2C70), (0x253, 0x253, 1, 0x181),
  (0x254, 0x254, 1, 0x186), (0x256, 0x257, 1, 0x189), (0x259, 0x259, 1, 0x18F),
  (0x25B, 0x25B, 1, 0x190), (0x25C, 0x25C, 1, 0xA7AB), (0x260, 0x260, 1, 0x193),
  (0x261, 0x261, 1, 0xA7AC), (0x263, 0x263, 1, 0x194), (0x265, 0x265, 1, 0xA78D),
  (0x266, 0x266, 1, 0xA7AA), (0x268, 0x268, 1, 0x197), (0x269, 0x269, 1, 0x196),
  (0x26A, 0x26A, 1, 0xA7AE), (0x26B, 0x26B, 1, 0x2C62), (0x26C, 0x26C, 1, 0xA7AD),
  (0x26F, 0x26F, 1, 0x19C), (0x271, 0x271, 1, 0x2C6E), (0x272, 0x272, 1, 0x19D),
  (0x275, 0x275, 1, 0x19F), (0x27D, 0x27D, 1, 0x2C64), (0x280, 0x280, 1, 0x1A6),
  (0x282, 0x282, 1, 0xA7C5), (0x283, 0x283, 1, 0x1A9), (0x287, 0x287, 1, 0xA7B1),
  (0x288, 0x288, 1, 0x1AE), (0x289, 0x289, 1, 0x244), (0x28A, 0x28B, 1, 0x1B1),
  (0x28C, 0x28C, 1, 0x245), (0x292, 0x292, 1, 0x1B7), (0x29D, 0x29D, 1, 0xA7B2),
  (0x29E, 0x29E, 1, 0xA7B0), (0x345, 0x345, 1, 0x399), (0x371, 0x373, 2, 0x370),
  (0x377, 0x377, 1, 0x376), (0x37B, 0x37D, 1, 0x3FD), (0x3AC, 0x3AC, 1, 0x386),
  (0x3AD, 0x3AF, 1, 0x388), (0x3B1, 0x3C1, 1, 0x391), (0x3C2, 0x3C2, 1, 0x3A3),
  (0x3C3, 0x3CB, 1, 0x3A3), (0x3CC, 0x3CC, 1, 0x38C), (0x3CD, 0x3CE, 1, 0x38E),
  (0x3D0, 0x3D0, 1, 0x392), (0x3D1, 0x3D1, 1, 0x398), (0x3D5, 0x3D5, 1, 0x3A6),
  (0x3D6, 0x3D6, 1, 0x3A0), (0x3D7, 0x3D7, 1, 0x3CF), (0x3D9, 0x3EF, 2, 0x3D8),
  (0x3F0, 0x3F0, 1, 0x39A), (0x3F1, 0x3F1, 1, 0x3A1), (0x3F2, 0x3F2, 1, 0x3F9),
  (0x3F3, 0x3F3, 1, 0x37F), (0x3F5, 0x3F5, 1, 0x395), (0x3F8, 0x3F8, 1, 0x3F7),
  (0x3FB, 0x3FB, 1, 0x3FA), (0x430, 0x44F, 1, 0x410), (0x450, 0x45F, 1, 0x400),
  (0x461, 0x481, 2, 0x460), (0x48B, 0x4BF, 2, 0x48A), (0x4C2, 0x4CE, 2, 0x4C1),
  (0x4CF, 0x4CF, 1, 0x4C0), (0x4D1, 0x52F, 2, 0x4D0), (0x561, 0x586, 1, 0x531),
  (0x13F8, 0x13FD, 1, 0x13F0), (0x1C80, 0x1C80, 1, 0x412), (0x1C81, 0x1C81, 1, 0x414),
  (0x1C82, 0x1C82, 1, 0x41E), (0x1C83, 0x1C84, 1, 0x421), (0x1C85, 0x1C85, 1, 0x422),
  (0x1C86, 0x1C86, 1, 0x42A), (0x1C87, 0x1C87, 1, 0x462), (0x1C88, 0x1C88, 1, 0xA64A),
  (0x1D79, 0x1D79, 1, 0xA77D), (0x1D7D, 0x1D7D, 1, 0x2C63), (0x1D8E, 0x1D8E, 1, 0xA7C6),
  (0x1E01, 0x1E95, 2, 0x1E00), (0x1E9B, 0x1E9B, 1, 0x1E60), (0x1EA1, 0x1EFF, 2, 0x1EA0),
  (0x1F00, 0x1F07, 1, 0x1F08), (0x1F10, 0x1F15, 1, 0x1F18), (0x1F20, 0x1F27, 1, 0x1F28),
  (0x1F30, 0x1F37, 1, 0x1F38), (0x1F40, 0x1F45, 1, 0x1F48), (0x1F51, 0x1F57, 2, 0x1F59),
  (0x1F60, 0x1F67, 1, 0x1F68), (0x1F70, 0x1F71, 1, 0x1FBA), (0x1F72, 0x1F75, 1, 0x1FC8),
  (0x1F76, 0x1F77, 1, 0x1FDA), (0x1F78, 0x1F79, 1, 0x1FF8), (0x1F7A, 0x1F7B, 1, 0x1FEA),
  (0x1F7C, 0x1F7D, 1, 0x1FFA), (0x1F80, 0x1F87, 1, 0x1F88), (0x1F90, 0x1F97, 1, 0x1F98),
  (0x1FA0, 0x1FA7, 1, 0x1FA8), (0x1FB0, 0x1FB1, 1, 0x1FB8), (0x1FB3, 0x1FB3, 1, 0x1FBC),
  (0x1FBE, 0x1FBE, 1, 0x399), (0x1FC3, 0x1FC3, 1, 0x1FCC), (0x1FD0, 0x1FD1, 1, 0x1FD8),
  (0x1FE0, 0x1FE1, 1, 0x1FE8), (0x1FE5, 0x1FE5, 1, 0x1FEC), (0x1FF3, 0x1FF3, 1, 0x1FFC),
  (0x214E, 0x214E, 1, 0x2132), (0x2170, 0x217F, 1, 0x2160), (0x2184, 0x2184, 1, 0x2183),
  (0x24D0, 0x24E9, 1, 0x24B6), (0x2C30, 0x2C5F, 1, 0x2C00), (0x2C61, 0x2C61, 1, 0x2C60),
  (0x2C65, 0x2C65, 1, 0x23A), (0x2C66, 0x2C66, 1, 0x23E), (0x2C68, 0x2C6C, 2, 0x2C67),
  (0x2C73, 0x2C73, 1, 0x2C72), (0x2C76, 0x2C76, 1, 0x2C75), (0x2C81, 0x2CE3, 2, 0x2C80),
  (0x2CEC, 0x2CEE, 2, 0x2CEB), (0x2CF3, 0x2CF3, 1, 0x2CF2), (0x2D00, 0x2D25, 1, 0x10A0),
  (0x2D27, 0x2D27, 1, 0x10C7), (0x2D2D, 0x2D2D, 1, 0x10CD), (0xA641, 0xA66D, 2, 0xA640),
  (0xA681, 0xA69B, 2, 0xA680), (0xA723, 0xA72F, 2, 0xA722), (0xA733, 0xA76F, 2, 0xA732),
  (0xA77A, 0xA77C, 2, 0xA779), (0xA77F, 0xA787, 2, 0xA77E), (0xA78C, 0xA78C, 1, 0xA78B),
  (0xA791, 0xA793, 2, 0xA790), (0xA794, 0xA794, 1, 0xA7C4), (0xA797, 0xA7A9, 2, 0xA796),
  (0xA7B5, 0xA7C3, 2, 0xA7B4), (0xA7C8, 0xA7CA, 2, 0xA7C7), (0xA7D1, 0xA7D1, 1, 0xA7D0),
  (0xA7D7, 0xA7D9, 2, 0xA7D6), (0xA7F6, 0xA7F6, 1, 0xA7F5), (0xAB53, 0xAB53, 1, 0xA7B3),
  (0xAB70, 0xABBF, 1, 0x13A0), (0xFF41, 0xFF5A, 1, 0xFF21), (0x10428, 0x1044F, 1, 0x10400),
  (0x104D8, 0x104FB, 1, 0x104B0), (0x10597, 0x105BB, 2, 0x10570), (0x10598, 0x10598, 1, 0x10571),
  (0x1059A, 0x1059A, 1, 0x10573), (0x1059C, 0x1059C, 1, 0x10575), (0x1059E, 0x1059E, 1, 0x10577),
  (0x105A0, 0x105A0, 1, 0x10579), (0x105A4, 0x105A4, 1, 0x1057D), (0x105A6, 0x105A6, 1, 0x1057F),
  (0x105A8, 0x105A8, 1, 0x10581), (0x105AA, 0x105AA, 1, 0x10583), (0x105AC, 0x105AC, 1, 0x10585),
  (0x105AE, 0x105AE, 1, 0x10587), (0x105B0, 0x105B0, 1, 0x10589), (0x105B4, 0x105B4, 1, 0x1058D),
  (0x105B6, 0x105B6, 1, 0x1058F), (0x105B8, 0x105B8, 1, 0x10591), (0x105BC, 0x105BC, 1, 0x10595),
  (0x10CC0, 0x10CF2, 1, 0x10C80), (0x118C0, 0x118DF, 1, 0x118A0), (0x16E60, 0x16E7F, 1, 0x16E40),
  (0x1E922, 0x1E943, 1, 0x1E900)]

/-- The lookup `unicode.To(unicode.TitleCase, r)` for a rune above U+007F, on code
points: a rune outside the table is its own title case. -/
def titleWide (n : Nat) : Nat :=
  match titleRanges.find? fun e => e.1 ≤ n && n ≤ e.2.1 && (n - e.1) % e.2.2.1 == 0 with
  | some e => e.2.2.2 + (n - e.1)
  | none => n

/-- The mapping `unicode.ToTitle`: in ASCII the letters `a` to `z` go to upper
case and nothing else changes; above ASCII the case table decides. -/
def toTitle (r : Char) : Char :=
  if r.toNat ≤ 0x7F then r.toUpper else Char.ofNat (titleWide r.toNat)

/-- The rune loop of `strings.Title`: `prev` is the rune seen last. -/
def titleRunes : Char → List Char → List Char
  | _, [] => []
  | prev, r :: rs => (if isSeparator prev then toTitle r else r) :: titleRunes r rs

/-- The function `strings.Title`: the first letter of every word is mapped to
title case. -/
def title (s : String) : String := ⟨titleRunes ' ' s.data⟩

/-- The ranges of printable runes above U+00FF (letters, marks, numbers,
punctuation and symbols), as given by the general categories of the Unicode
Character Database (14.0.0): the content of the tables of `strconv.IsPrint`. -/
def printRanges : List (Nat × Nat) := [
  (0x100, 0x377), (0x37A, 0x37F), (0x384, 0x38A), (0x38C, 0x38C), (0x38E, 0x3A1),
  (0x3A3, 0x52F), (0x531, 0x556), (0x559, 0x58A), (0x58D, 0x58F), (0x591, 0x5C7),
  (0x5D0, 0x5EA), (0x5EF, 0x5F4), (0x606, 0x61B), (0x61D, 0x6DC), (0x6DE, 0x70D),
  (0x710, 0x74A), (0x74D, 0x7B1), (0x7C0, 0x7FA), (0x7FD, 0x82D), (0x830, 0x83E),
  (0x840, 0x85B), (0x85E, 0x85E), (0x860, 0x86A), (0x870, 0x88E), (0x898, 0x8E1),
  (0x8E3, 0x983), (0x985, 0x98C), (0x98F, 0x990), (0x993, 0x9A8), (0x9AA, 0x9B0),
  (0x9B2, 0x9B2), (0x9B6, 0x9B9), (0x9BC, 0x9C4), (0x9C7, 0x9C8), (0x9CB, 0x9CE),
  (0x9D7, 0x9D7), (0x9DC, 0x9DD), (0x9DF, 0x9E3), (0x9E6, 0x9FE), (0xA01, 0xA03),
  (0xA05, 0xA0A), (0xA0F, 0xA10), (0xA13, 0xA28), (0xA2A, 0xA30), (0xA32, 0xA33),
  (0xA35, 0xA36), (0xA38, 0xA39), (0xA3C, 0xA3C), (0xA3E, 0xA42), (0xA47, 0xA48),
  (0xA4B, 0xA4D), (0xA51, 0xA51), (0xA59, 0xA5C), (0xA5E, 0xA5E), (0xA66, 0xA76),
  (0xA81, 0xA83), (0xA85, 0xA8D), (0xA8F, 0xA91), (0xA93, 0xAA8), (0xAAA, 0xAB0),
  (0xAB2, 0xAB3), (0xAB5, 0xAB9), (0xABC, 0xAC5), (0xAC7, 0xAC9), (0xACB, 0xACD),
  (0xAD0, 0xAD0), (0xAE0, 0xAE3), (0xAE6, 0xAF1), (0xAF9, 0xAFF), (0xB01, 0xB03),
  (0xB05, 0xB0C), (0xB0F, 0xB10), (0xB13, 0xB28), (0xB2A, 0xB30), (0xB32, 0xB33),
  (0xB35, 0xB39), (0xB3C, 0xB44), (0xB47, 0xB48), (0xB4B, 0xB4D), (0xB55, 0xB57),
  (0xB5C, 0xB5D), (0xB5F, 0xB63), (0xB66, 0xB77), (0xB82, 0xB83), (0xB85, 0xB8A),
  (0xB8E, 0xB90), (0xB92, 0xB95), (0xB99, 0xB9A), (0xB9C, 0xB9C), (0xB9E, 0xB9F),
  (0xBA3, 0xBA4), (0xBA8, 0xBAA), (0xBAE, 0xBB9), (0xBBE, 0xBC2), (0xBC6, 0xBC8),
  (0xBCA, 0xBCD), (0xBD0, 0xBD0), (0xBD7, 0xBD7), (0xBE6, 0xBFA), (0xC00, 0xC0C),
  (0xC0E, 0xC10), (0xC12, 0xC28), (0xC2A, 0xC39), (0xC3C, 0xC44), (0xC46, 0xC48),
  (0xC4A, 0xC4D), (0xC55, 0xC56), (0xC58, 0xC5A), (0xC5D, 0xC5D), (0xC60, 0xC63),
  (0xC66, 0xC6F), (0xC77, 0xC8C), (0xC8E, 0xC90), (0xC92, 0xCA8), (0xCAA, 0xCB3),
  (0xCB5, 0xCB9), (0xCBC, 0xCC4), (0xCC6, 0xCC8), (0xCCA, 0xCCD), (0xCD5, 0xCD6),
  (0xCDD, 0xCDE), (0xCE0, 0xCE3), (0xCE6, 0xCEF), (0xCF1, 0xCF2), (0xD00, 0xD0C),
  (0xD0E, 0xD10), (0xD12, 0xD44), (0xD46, 0xD48), (0xD4A, 0xD4F), (0xD54, 0xD63),
  (0xD66, 0xD7F), (0xD81, 0xD83), (0xD85, 0xD96), (0xD9A, 0xDB1), (0xDB3, 0xDBB),
  (0xDBD, 0xDBD), (0xDC0, 0xDC6), (0xDCA, 0xDCA), (0xDCF, 0xDD4), (0xDD6, 0xDD6),
  (0xDD8, 0xDDF), (0xDE6, 0xDEF), (0xDF2, 0xDF4), (0xE01, 0xE3A), (0xE3F, 0xE5B),
  (0xE81, 0xE82), (0xE84, 0xE84), (0xE86, 0xE8A), (0xE8C, 0xEA3), (0xEA5, 0xEA5),
  (0xEA7, 0xEBD), (0xEC0, 0xEC4), (0xEC6, 0xEC6), (0xEC8, 0xECD), (0xED0, 0xED9),
  (0xEDC, 0xEDF), (0xF00, 0xF47), (0xF49, 0xF6C), (0xF71, 0xF97), (0xF99, 0xFBC),
  (0xFBE, 0xFCC), (0xFCE, 0xFDA), (0x1000, 0x10C5), (0x10C7, 0x10C7), (0x10CD, 0x10CD),
  (0x10D0, 0x1248), (0x124A, 0x124D), (0x1250, 0x1256), (0x1258, 0x1258), (0x125A, 0x125D),
  (0x1260, 0x1288), (0x128A, 0x128D), (0x1290, 0x12B0), (0x12B2, 0x12B5), (0x12B8, 0x12BE),
  (0x12C0, 0x12C0), (0x12C2, 0x12C5), (0x12C8, 0x12D6), (0x12D8, 0x1310), (0x1312, 0x1315),
  (0x1318, 0x135A), (0x135D, 0x137C), (0x1380, 0x1399), (0x13A0, 0x13F5), (0x13F8, 0x13FD),
  (0x1400, 0x167F), (0x1681, 0x169C), (0x16A0, 0x16F8), (0x1700, 0x1715), (0x171F, 0x1736),
  (0x1740, 0x1753), (0x1760, 0x176C), (0x176E, 0x1770), (0x1772, 0x1773), (0x1780, 0x17DD),
  (0x17E0, 0x17E9), (0x17F0, 0x17F9), (0x1800, 0x180D), (0x180F, 0x1819), (0x1820, 0x1878),
  (0x1880, 0x18AA), (0x18B0, 0x18F5), (0x1900, 0x191E), (0x1920, 0x192B), (0x1930, 0x193B),
  (0x1940, 0x1940), (0x1944, 0x196D), (0x1970, 0x1974), (0x1980, 0x19AB), (0x19B0, 0x19C9),
  (0x19D0, 0x19DA), (0x19DE, 0x1A1B), (0x1A1E, 0x1A5E), (0x1A60, 0x1A7C), (0x1A7F, 0x1A89),
  (0x1A90, 0x1A99), (0x1AA0, 0x1AAD), (0x1AB0, 0x1ACE), (0x1B00, 0x1B4C), (0x1B50, 0x1B7E),
  (0x1B80, 0x1BF3), (0x1BFC, 0x1C37), (0x1C3B, 0x1C49), (0x1C4D, 0x1C88), (0x1C90, 0x1CBA),
  (0x1CBD, 0x1CC7), (0x1CD0, 0x1CFA), (0x1D00, 0x1F15), (0x1F18, 0x1F1D), (0x1F20, 0x1F45),
  (0x1F48, 0x1F4D), (0x1F50, 0x1F57), (0x1F59, 0x1F59), (0x1F5B, 0x1F5B), (0x1F5D, 0x1F5D),
  (0x1F5F, 0x1F7D), (0x1F80, 0x1FB4), (0x1FB6, 0x1FC4), (0x1FC6, 0x1FD3), (0x1FD6, 0x1FDB),
  (0x1FDD, 0x1FEF), (0x1FF2, 0x1FF4), (0x1FF6, 0x1FFE), (0x2010, 0x2027), (0x2030, 0x205E),
  (0x2070, 0x2071), (0x2074, 0x208E), (0x2090, 0x209C), (0x20A0, 0x20C0), (0x20D0, 0x20F0),
  (0x2100, 0x218B), (0x2190, 0x2426), (0x2440, 0x244A), (0x2460, 0x2B73), (0x2B76, 0x2B95),
  (0x2B97, 0x2CF3), (0x2CF9, 0x2D25), (0x2D27, 0x2D27), (0x2D2D, 0x2D2D), (0x2D30, 0x2D67),
  (0x2D6F, 0x2D70), (0x2D7F, 0x2D96), (0x2DA0, 0x2DA6), (0x2DA8, 0x2DAE), (0x2DB0, 0x2DB6),
  (0x2DB8, 0x2DBE), (0x2DC0, 0x2DC6), (0x2DC8, 0x2DCE), (0x2DD0, 0x2DD6), (0x2DD8, 0x2DDE),
  (0x2DE0, 0x2E5D), (0x2E80, 0x2E99), (0x2E9B, 0x2EF3), (0x2F00, 0x2FD5), (0x2FF0, 0x2FFB),
  (0x3001, 0x303F), (0x3041, 0x3096), (0x3099, 0x30FF), (0x3105, 0x312F), (0x3131, 0x318E),
  (0x3190, 0x31E3), (0x31F0, 0x321E), (0x3220, 0xA48C), (0xA490, 0xA4C6), (0xA4D0, 0xA62B),
  (0xA640, 0xA6F7), (0xA700, 0xA7CA), (0xA7D0, 0xA7D1), (0xA7D3, 0xA7D3), (0xA7D5, 0xA7D9),
  (0xA7F2, 0xA82C), (0xA830, 0xA839), (0xA840, 0xA877), (0xA880, 0xA8C5), (0xA8CE, 0xA8D9),
  (0xA8E0, 0xA953), (0xA95F, 0xA97C), (0xA980, 0xA9CD), (0xA9CF, 0xA9D9), (0xA9DE, 0xA9FE),
  (0xAA00, 0xAA36), (0xAA40, 0xAA4D), (0xAA50, 0xAA59), (0xAA5C, 0xAAC2), (0xAADB, 0xAAF6),
  (0xAB01, 0xAB06), (0xAB09, 0xAB0E), (0xAB11, 0xAB16), (0xAB20, 0xAB26), (0xAB28, 0xAB2E),
  (0xAB30, 0xAB6B), (0xAB70, 0xABED), (0xABF0, 0xABF9), (0xAC00, 0xD7A3), (0xD7B0, 0xD7C6),
  (0xD7CB, 0xD7FB), (0xF900, 0xFA6D), (0xFA70, 0xFAD9), (0xFB00, 0xFB06), (0xFB13, 0xFB17),
  (0xFB1D, 0xFB36), (0xFB38, 0xFB3C), (0xFB3E, 0xFB3E), (0xFB40, 0xFB41), (0xFB43, 0xFB44),
  (0xFB46, 0xFBC2), (0xFBD3, 0xFD8F), (0xFD92, 0xFDC7), (0xFDCF, 0xFDCF), (0xFDF0, 0xFE19),
  (0xFE20, 0xFE52), (0xFE54, 0xFE66), (0xFE68, 0xFE6B), (0xFE70, 0xFE74), (0xFE76, 0xFEFC),
  (0xFF01, 0xFFBE), (0xFFC2, 0xFFC7), (0xFFCA, 0xFFCF), (0xFFD2, 0xFFD7), (0xFFDA, 0xFFDC),
  (0xFFE0, 0xFFE6), (0xFFE8, 0xFFEE), (0xFFFC, 0xFFFD), (0x10000, 0x1000B), (0x1000D, 0x10026),
  (0x10028, 0x1003A), (0x1003C, 0x1003D), (0x1003F, 0x1004D), (0x10050, 0x1005D), (0x10080, 0x100FA),
  (0x10100, 0x10102), (0x10107, 0x10133), (0x10137, 0x1018E), (0x10190, 0x1019C), (0x101A0, 0x101A0),
  (0x101D0, 0x101FD), (0x10280, 0x1029C), (0x102A0, 0x102D0), (0x102E0, 0x102FB), (0x10300, 0x10323),
  (0x1032D, 0x1034A), (0x10350, 0x1037A), (0x10380, 0x1039D), (0x1039F, 0x103C3), (0x103C8, 0x103D5),
  (0x10400, 0x1049D), (0x104A0, 0x104A9), (0x104B0, 0x104D3), (0x104D8, 0x104FB), (0x10500, 0x10527),
  (0x10530, 0x10563), (0x1056F, 0x1057A), (0x1057C, 0x1058A), (0x1058C, 0x10592), (0x10594, 0x10595),
  (0x10597, 0x105A1), (0x105A3, 0x105B1), (0x105B3, 0x105B9), (0x105BB, 0x105BC), (0x10600, 0x10736),
  (0x10740, 0x10755), (0x10760, 0x10767), (0x10780, 0x10785), (0x10787, 0x107B0), (0x107B2, 0x107BA),
  (0x10800, 0x10805), (0x10808, 0x10808), (0x1080A, 0x10835), (0x10837, 0x10838), (0x1083C, 0x1083C),
  (0x1083F, 0x10855), (0x10857, 0x1089E), (0x108A7, 0x108AF), (0x108E0, 0x108F2), (0x108F4, 0x108F5),
  (0x108FB, 0x1091B), (0x1091F, 0x10939), (0x1093F, 0x1093F), (0x10980, 0x109B7), (0x109BC, 0x109CF),
  (0x109D2, 0x10A03), (0x10A05, 0x10A06), (0x10A0C, 0x10A13), (0x10A15, 0x10A17), (0x10A19, 0x10A35),
  (0x10A38, 0x10A3A), (0x10A3F, 0x10A48), (0x10A50, 0x10A58), (0x10A60, 0x10A9F), (0x10AC0, 0x10AE6),
  (0x10AEB, 0x10AF6), (0x10B00, 0x10B35), (0x10B39, 0x10B55), (0x10B58, 0x10B72), (0x10B78, 0x10B91),
  (0x10B99, 0x10B9C), (0x10BA9, 0x10BAF), (0x10C00, 0x10C48), (0x10C80, 0x10CB2), (0x10CC0, 0x10CF2),
  (0x10CFA, 0x10D27), (0x10D30, 0x10D39), (0x10E60, 0x10E7E), (0x10E80, 0x10EA9), (0x10EAB, 0x10EAD),
  (0x10EB0, 0x10EB1), (0x10F00, 0x10F27), (0x10F30, 0x10F59), (0x10F70, 0x10F89), (0x10FB0, 0x10FCB),
  (0x10FE0, 0x10FF6), (0x11000, 0x1104D), (0x11052, 0x11075), (0x1107F, 0x110BC), (0x110BE, 0x110C2),
  (0x110D0, 0x110E8), (0x110F0, 0x110F9), (0x11100, 0x11134), (0x11136, 0x11147), (0x11150, 0x11176),
  (0x11180, 0x111DF), (0x111E1, 0x111F4), (0x11200, 0x11211), (0x11213, 0x1123E), (0x11280, 0x11286),
  (0x11288, 0x11288), (0x1128A, 0x1128D), (0x1128F, 0x1129D), (0x1129F, 0x112A9), (0x112B0, 0x112EA),
  (0x112F0, 0x112F9), (0x11300, 0x11303), (0x11305, 0x1130C), (0x1130F, 0x11310), (0x11313, 0x11328),
  (0x1132A, 0x11330), (0x11332, 0x11333), (0x11335, 0x11339), (0x1133B, 0x11344), (0x11347, 0x11348),
  (0x1134B, 0x1134D), (0x11350, 0x11350), (0x11357, 0x11357), (0x1135D, 0x11363), (0x11366, 0x1136C),
  (0x11370, 0x11374), (0x11400, 0x1145B), (0x1145D, 0x11461), (0x11480, 0x114C7), (0x114D0, 0x114D9),
  (0x11580, 0x115B5), (0x115B8, 0x115DD), (0x11600, 0x11644), (0x11650, 0x11659), (0x11660, 0x1166C),
  (0x11680, 0x116B9), (0x116C0, 0x116C9), (0x11700, 0x1171A), (0x1171D, 0x1172B), (0x11730, 0x11746),
  (0x11800, 0x1183B), (0x118A0, 0x118F2), (0x118FF, 0x11906), (0x11909, 0x11909), (0x1190C, 0x11913),
  (0x11915, 0x11916), (0x11918, 0x11935), (0x11937, 0x11938), (0x1193B, 0x11946), (0x11950, 0x11959),
  (0x119A0, 0x119A7), (0x119AA, 0x119D7), (0x119DA, 0x119E4), (0x11A00, 0x11A47), (0x11A50, 0x11AA2),
  (0x11AB0, 0x11AF8), (0x11C00, 0x11C08), (0x11C0A, 0x11C36), (0x11C38, 0x11C45), (0x11C50, 0x11C6C),
  (0x11C70, 0x11C8F), (0x11C92, 0x11CA7), (0x11CA9, 0x11CB6), (0x11D00, 0x11D06), (0x11D08, 0x11D09),
  (0x11D0B, 0x11D36), (0x11D3A, 0x11D3A), (0x11D3C, 0x11D3D), (0x11D3F, 0x11D47), (0x11D50, 0x11D59),
  (0x11D60, 0x11D65), (0x11D67, 0x11D68), (0x11D6A, 0x11D8E), (0x11D90, 0x11D91), (0x11D93, 0x11D98),
  (0x11DA0, 0x11DA9), (0x11EE0, 0x11EF8), (0x11FB0, 0x11FB0), (0x11FC0, 0x11FF1), (0x11FFF, 0x12399),
  (0x12400, 0x1246E), (0x12470, 0x12474), (0x12480, 0x12543), (0x12F90, 0x12FF2), (0x13000, 0x1342E),
  (0x14400, 0x14646), (0x16800, 0x16A38), (0x16A40, 0x16A5E), (0x16A60, 0x16A69), (0x16A6E, 0x16ABE),
  (0x16AC0, 0x16AC9), (0x16AD0, 0x16AED), (0x16AF0, 0x16AF5), (0x16B00, 0x16B45), (0x16B50, 0x16B59),
  (0x16B5B, 0x16B61), (0x16B63, 0x16B77), (0x16B7D, 0x16B8F), (0x16E40, 0x16E9A), (0x16F00, 0x16F4A),
  (0x16F4F, 0x16F87), (0x16F8F, 0x16F9F), (0x16FE0, 0x16FE4), (0x16FF0, 0x16FF1), (0x17000, 0x187F7),
  (0x18800, 0x18CD5), (0x18D00, 0x18D08), (0x1AFF0, 0x1AFF3), (0x1AFF5, 0x1AFFB), (0x1AFFD, 0x1AFFE),
  (0x1B000, 0x1B122), (0x1B150, 0x1B152), (0x1B164, 0x1B167), (0x1B170, 0x1B2FB), (0x1BC00, 0x1BC6A),
  (0x1BC70, 0x1BC7C), (0x1BC80, 0x1BC88), (0x1BC90, 0x1BC99), (0x1BC9C, 0x1BC9F), (0x1CF00, 0x1CF2D),
  (0x1CF30, 0x1CF46), (0x1CF50, 0x1CFC3), (0x1D000, 0x1D0F5), (0x1D100, 0x1D126), (0x1D129, 0x1D172),
  (0x1D17B, 0x1D1EA), (0x1D200, 0x1D245), (0x1D2E0, 0x1D2F3), (0x1D300, 0x1D356), (0x1D360, 0x1D378),
  (0x1D400, 0x1D454), (0x1D456, 0x1D49C), (0x1D49E, 0x1D49F), (0x1D4A2, 0x1D4A2), (0x1D4A5, 0x1D4A6),
  (0x1D4A9, 0x1D4AC), (0x1D4AE, 0x1D4B9), (0x1D4BB, 0x1D4BB), (0x1D4BD, 0x1D4C3), (0x1D4C5, 0x1D505),
  (0x1D507, 0x1D50A), (0x1D50D, 0x1D514), (0x1D516, 0x1D51C), (0x1D51E, 0x1D539), (0x1D53B, 0x1D53E),
  (0x1D540, 0x1D544), (0x1D546, 0x1D546), (0x1D54A, 0x1D550), (0x1D552, 0x1D6A5), (0x1D6A8, 0x1D7CB),
  (0x1D7CE, 0x1DA8B), (0x1DA9B, 0x1DA9F), (0x1DAA1, 0x1DAAF), (0x1DF00, 0x1DF1E), (0x1E000, 0x1E006),
  (0x1E008, 0x1E018), (0x1E01B, 0x1E021), (0x1E023, 0x1E024), (0x1E026, 0x1E02A), (0x1E100, 0x1E12C),
  (0x1E130, 0x1E13D), (0x1E140, 0x1E149), (0x1E14E, 0x1E14F), (0x1E290, 0x1E2AE), (0x1E2C0, 0x1E2F9),
  (0x1E2FF, 0x1E2FF), (0x1E7E0, 0x1E7E6), (0x1E7E8, 0x1E7EB), (0x1E7ED, 0x1E7EE), (0x1E7F0, 0x1E7FE),
  (0x1E800, 0x1E8C4), (0x1E8C7, 0x1E8D6), (0x1E900, 0x1E94B), (0x1E950, 0x1E959), (0x1E95E, 0x1E95F),
  (0x1EC71, 0x1ECB4), (0x1ED01, 0x1ED3D), (0x1EE00, 0x1EE03), (0x1EE05, 0x1EE1F), (0x1EE21, 0x1EE22),
  (0x1EE24, 0x1EE24), (0x1EE27, 0x1EE27), (0x1EE29, 0x1EE32), (0x1EE34, 0x1EE37), (0x1EE39, 0x1EE39),
  (0x1EE3B, 0x1EE3B), (0x1EE42, 0x1EE42), (0x1EE47, 0x1EE47), (0x1EE49, 0x1EE49), (0x1EE4B, 0x1EE4B),
  (0x1EE4D, 0x1EE4F), (0x1EE51, 0x1EE52), (0x1EE54, 0x1EE54), (0x1EE57, 0x1EE57), (0x1EE59, 0x1EE59),
  (0x1EE5B, 0x1EE5B), (0x1EE5D, 0x1EE5D), (0x1EE5F, 0x1EE5F), (0x1EE61, 0x1EE62), (0x1EE64, 0x1EE64),
  (0x1EE67, 0x1EE6A), (0x1EE6C, 0x1EE72), (0x1EE74, 0x1EE77), (0x1EE79, 0x1EE7C), (0x1EE7E, 0x1EE7E),
  (0x1EE80, 0x1EE89), (0x1EE8B, 0x1EE9B), (0x1EEA1, 0x1EEA3), (0x1EEA5, 0x1EEA9), (0x1EEAB, 0x1EEBB),
  (0x1EEF0, 0x1EEF1), (0x1F000, 0x1F02B), (0x1F030, 0x1F093), (0x1F0A0, 0x1F0AE), (0x1F0B1, 0x1F0BF),
  (0x1F0C1, 0x1F0CF), (0x1F0D1, 0x1F0F5), (0x1F100, 0x1F1AD), (0x1F1E6, 0x1F202), (0x1F210, 0x1F23B),
  (0x1F240, 0x1F248), (0x1F250, 0x1F251), (0x1F260, 0x1F265), (0x1F300, 0x1F6D7), (0x1F6DD, 0x1F6EC),
  (0x1F6F0, 0x1F6FC), (0x1F700, 0x1F773), (0x1F780, 0x1F7D8), (0x1F7E0, 0x1F7EB), (0x1F7F0, 0x1F7F0),
  (0x1F800, 0x1F80B), (0x1F810, 0x1F847), (0x1F850, 0x1F859), (0x1F860, 0x1F887), (0x1F890, 0x1F8AD),
  (0x1F8B0, 0x1F8B1), (0x1F900, 0x1FA53), (0x1FA60, 0x1FA6D), (0x1FA70, 0x1FA74), (0x1FA78, 0x1FA7C),
  (0x1FA80, 0x1FA86), (0x1FA90, 0x1FAAC), (0x1FAB0, 0x1FABA), (0x1FAC0, 0x1FAC5), (0x1FAD0, 0x1FAD9),
  (0x1FAE0, 0x1FAE7), (0x1FAF0, 0x1FAF6), (0x1FB00, 0x1FB92), (0x1FB94, 0x1FBCA), (0x1FBF0, 0x1FBF9),
  (0x20000, 0x2A6DF), (0x2A700, 0x2B738), (0x2B740, 0x2B81D), (0x2B820, 0x2CEA1), (0x2CEB0, 0x2EBE0),
  (0x2F800, 0x2FA1D), (0x30000, 0x3134A), (0xE0100, 0xE01EF)]

/-- The test `strconv.IsPrint`: a fast path for Latin-1, the tables above it. -/
def isPrint (r : Char) : Bool :=
  if r.toNat ≤ 0xFF then
    (0x20 ≤ r.toNat && r.toNat ≤ 0x7E) ||
      (0xA1 ≤ r.toNat && r.toNat ≤ 0xFF && r.toNat != 0xAD)
  else printRanges.any fun e => e.1 ≤ r.toNat && r.toNat ≤ e.2

/-- One hexadecimal digit, lower case. -/
def hexDigit (n : Nat) : Char :=
  if n < 10 then Char.ofNat (48 + n) else Char.ofNat (87 + n)

/-- The escape of one rune by `strconv.Quote`: the quote and the backslash get a
backslash, a printable rune stays, the usual control characters have their
letter, and any other rune is written `\x`, `\u` or `\U` with 2, 4 or 8
hexadecimal digits. -/
def quoteRune (r : Char) : List Char :=
  if r = '"' ∨ r = '\\' then ['\\', r]
  else if isPrint r then [r]
  else if r.toNat = 7 then ['\\', 'a']
  else if r.toNat = 8 then ['\\', 'b']
  else if r.toNat = 12 then ['\\', 'f']
  else if r = '\n' then ['\\', 'n']
  else if r = '\r' then ['\\', 'r']
  else if r = '\t' then ['\\', 't']
  else if r.toNat = 11 then ['\\', 'v']
  else if r.toNat < 0x20 ∨ r.toNat = 0x7F then
    ['\\', 'x', hexDigit (r.toNat / 16), hexDigit (r.toNat % 16)]
  else if r.toNat < 0x10000 then
    ['\\', 'u', hexDigit (r.toNat / 4096 % 16), hexDigit (r.toNat / 256 % 16),
      hexDigit (r.toNat / 16 % 16), hexDigit (r.toNat % 16)]
  else
    ['\\', 'U', hexDigit (r.toNat / 268435456 % 16), hexDigit (r.toNat / 16777216 % 16),
      hexDigit (r.toNat / 1048576 % 16), hexDigit (r.toNat / 65536 % 16),
      hexDigit (r.toNat / 4096 % 16), hexDigit (r.toNat / 256 % 16),
      hexDigit (r.toNat / 16 % 16), hexDigit (r.toNat % 16)]

/-- The verb `%q` applied to a string. -/
def quote (s : String) : String := ⟨'"' :: (s.data.flatMap quoteRune ++ ['"'])⟩

/-! ## The text of the lines -/

/-- The line written by `fmt.Fprintf(o, "type %s struct {\n", strings.Title(name))`. -/
def openLine (name : String) : String := "type " ++ title name ++ " struct \x7b\n"

/-- The line written for a field of key `k` and type `t`. -/
def fieldLine (pfx k t : String) : String :=
  "\t" ++ pfx ++ title k ++ " " ++ t ++ " `json:" ++ quote k ++ "`\n"

/-- The text written after the fields of a record. -/
def closeLine (name : String) : String := "\x7d `json:" ++ quote name ++ "`\n\n"

/-- The message of the error of a `default` branch. -/
def unrecognized (v : Value) : Err := .errorf ("Unrecognized type: " ++ v.goType)

/-- The type name returned when the last two element types of a slice differ. -/
def anyType : String := "interface\x7b\x7d"

/-! ## The two procedures -/

/-- The part of `printStruct` after its loop: the closing line, then the copy of
the buffer of nested declarations, then the returned name. -/
def finishStruct (name : String) (o buf : Sink) : Sink × Except Err String :=
  let o1 := (o.write (closeLine name)).1
  match ioCopy o1 buf with
  | (o2, some e) => (o2, .error (.write e))
  | (o2, none) => (o2, .ok (title name))

/-- The end of `printSlice`: the comparison of the last two element types. -/
def finishSlice (t last : String) : String :=
  if last ≠ "" ∧ last ≠ t then anyType else t

mutual

/-- The loop `for k, v := range m` of `printStruct`, on the entries still to
visit, listed in the order in which this run of the loop visits them, the writer
`o` and the local buffer `buf`.  The result holds both writers and the error the
loop returned with, if any. -/
def structLoop (pfx : String) : List (String × Value) → Sink → Sink → Sink × Sink × Option Err
  | [], o, buf => (o, buf, none)
  | (k, v) :: rest, o, buf =>
    match structCase pfx k v buf with
    | (buf1, .error e) => (o, buf1, some e)
    | (buf1, .ok t) =>
      match o.write (fieldLine pfx k t) with
      | (o1, some e) => (o1, buf1, some (.write e))
      | (o1, none) => structLoop pfx rest o1 buf1

/-- The type switch in the loop of `printStruct`: the type name `t` of the
field `k`, nested declarations going to `buf`. -/
def structCase (pfx k : String) : Value → Sink → Sink × Except Err String
  | .num _, buf => (buf, .ok "float64")
  | .str _, buf => (buf, .ok "string")
  | .arr s, buf =>
    match sliceLoop (pfx ++ "\t") k s "" "" Sink.buffer with
    | (_, .error e) => (buf, .error e)
    | (_, .ok (t, last)) => (buf, .ok ("[]" ++ finishSlice t last))
  | .obj m, buf =>
    match structLoop (pfx ++ "\t") m (buf.write (openLine k)).1 Sink.buffer with
    | (o1, _, some e) => (o1, .error e)
    | (o1, buf1, none) => finishStruct k o1 buf1
  | .null, buf => (buf, .error (unrecognized .null))
  | .bool b, buf => (buf, .error (unrecognized (.bool b)))

/-- The loop `for _, v := range s` of `printSlice`, with the variables `t`,
`last` and the local buffer. -/
def sliceLoop (pfx name : String) : List Value → String → String → Sink →
    Sink × Except Err (String × String)
  | [], t, last, buf => (buf, .ok (t, last))
  | v :: rest, t, _, buf =>
    match sliceCase pfx name v buf with
    | (buf1, .error e) => (buf1, .error e)
    | (buf1, .ok t1) => sliceLoop pfx name rest t1 t buf1

/-- The type switch in the loop of `printSlice`: the new value of `t`. -/
def sliceCase (pfx name : String) : Value → Sink → Sink × Except Err String
  | .num _, buf => (buf, .ok "float64")
  | .str _, buf => (buf, .ok "string")
  | .arr s, buf =>
    match sliceLoop (pfx ++ "\t") name s "" "" Sink.buffer with
    | (_, .error e) => (buf, .error e)
    | (_, .ok (t, last)) => (buf, .ok ("[]" ++ finishSlice t last))
  | .obj m, buf =>
    match structLoop (pfx ++ "\t") m (buf.write (openLine name)).1 Sink.buffer with
    | (o1, _, some e) => (o1, .error e)
    | (o1, buf1, none) => finishStruct name o1 buf1
  | .null, buf => (buf, .error (unrecognized .null))
  | .bool b, buf => (buf, .error (unrecognized (.bool b)))

end

/-- The procedure `printStruct(o, prefix, name, m)`: the writer after the call
and the returned type name or error. -/
def printStruct (o : Sink) (pfx name : String) (m : List (String × Value)) :
    Sink × Except Err String :=
  match structLoop pfx m (o.write (openLine name)).1 Sink.buffer with
  | (o1, _, some e) => (o1, .error e)
  | (o1, buf, none) => finishStruct name o1 buf

/-- The procedure `printSlice(o, prefix, name, s)`: the writer after the call
and the returned type name or error. -/
def printSlice (o : Sink) (pfx name : String) (s : List Value) : Sink × Except Err String :=
  match sliceLoop pfx name s "" "" Sink.buffer with
  | (_, .error e) => (o, .error e)
  | (_, .ok (t, last)) => (o, .ok (finishSlice t last))

/-! ## The order of a `range` over a map -/

/-- The runs of `for k, v := range m` over the Go map decoded from a mapping
whose entries are `doc`, listed in the key order of the document: the loop
visits every entry exactly once, in an order `vis` that the runtime picks, and
every order can occur. -/
def RangeOrder (doc vis : List (String × Value)) : Prop := vis.Perm doc

/-! ## Writers that accept every write -/

/-- A writer that never rejects a write. -/
def Sink.Accepting (o : Sink) : Prop := ∀ h p, o.respond h p = none

/-- The writer `o` after it has accepted the payloads `ws`, one call each. -/
def Sink.append (o : Sink) (ws : List String) : Sink :=
  ⟨o.data ++ String.join ws, o.history ++ ws, o.respond⟩

/-! ## Observations on the written text -/

/-- The type name the switch of `printStruct` gives to the field `k` of value
`v`; as in the program it is empty when the switch returns an error. -/
def fieldTypeName (pfx k : String) (v : Value) : String :=
  match (structCase pfx k v Sink.buffer).2 with
  | .ok t => t
  | .error _ => ""

/-- The field lines of the entries `m`, in order. -/
def fieldLines (pfx : String) (m : List (String × Value)) : List String :=
  m.map fun kv => fieldLine pfx kv.1 (fieldTypeName pfx kv.1 kv.2)

/-- The writes that the switch of `printStruct` sends to the local buffer for
the entries `m`, in order: the declarations of the records nested in them. -/
def nestedWrites (pfx : String) (m : List (String × Value)) : List String :=
  m.flatMap fun kv => (structCase pfx kv.1 kv.2 Sink.buffer).1.history

/-- Whether the characters `p` start the characters `l`. -/
def startsWith : List Char → List Char → Bool
  | [], _ => true
  | _ :: _, [] => false
  | a :: p, b :: l => a == b && startsWith p l

/-- The offset of the first occurrence of `p` in `l`, counted from `i`. -/
def findFrom (p : List Char) : List Char → Nat → Option Nat
  | [], i => if p.isEmpty then some i else none
  | b :: l, i => if startsWith p (b :: l) then some i else findFrom p l (i + 1)

/-- The offset of the first occurrence of the text `p` in `text`. -/
def offsetOf (p text : String) : Option Nat := findFrom p.data text.data 0

/-- Whether the text `a` occurs in `text` and ends before an occurrence of the
text `b` starts. -/
def occursBefore (text a b : String) : Bool :=
  match offsetOf a text, offsetOf b text with
  | some i, some j => decide (i + a.length ≤ j)
  | _, _ => false

/-! ## Example documents -/

/-- The document with root mapping `user: (id: 1)`. -/
def userDoc : List (String × Value) := [("user", .obj [("id", .num .float64)])]

/-- The declaration of the record `User` of `userDoc`. -/
def userDecl : String := openLine "user" ++ fieldLine "\t" "id" "float64" ++ closeLine "user"

/-- The declaration of the root record of `userDoc`. -/
def rootDecl : String :=
  openLine "TopLevelElement" ++ fieldLine "" "user" "User" ++ closeLine "TopLevelElement"

/-- The document with root mapping `xs: [(a: 1)]`: a sequence holding one mapping. -/
def seqDoc : List (String × Value) := [("xs", .arr [.obj [("a", .num .float64)]])]

/-- The type name the switch of `printSlice` computes for the element `v` of a
slice named `name`, or the error it returns with. -/
def elemType (pfx name : String) (v : Value) : Except Err String :=
  (sliceCase pfx name v Sink.buffer).2

/-! ## The type nodes of the specification

The specification describes inference through a tree of type nodes (§3) built by
a synthesizer (§4.1) and a sequence unifier (§4.2).  The definitions below follow
its words; the program itself only handles type names. -/

/-- The scalar kinds of the specification. -/
inductive ScalarKind where
  | number | string | unknown
  deriving DecidableEq, Repr

/-- The type node of the specification: a scalar, a record with its name and
its fields (field name, serialization tag, type), or a sequence. -/
inductive TypeNode where
  | scalar : ScalarKind → TypeNode
  | record : String → List (String × String × TypeNode) → TypeNode
  | sequence : TypeNode → TypeNode

mutual

/-- Structural equality of type nodes. -/
def TypeNode.same : TypeNode → TypeNode → Bool
  | .scalar a, .scalar b => a == b
  | .record n fs, .record n2 fs2 => n == n2 && TypeNode.sameFields fs fs2
  | .sequence a, .sequence b => TypeNode.same a b
  | _, _ => false

/-- Structural equality of field lists. -/
def TypeNode.sameFields : List (String × String × TypeNode) →
    List (String × String × TypeNode) → Bool
  | [], [] => true
  | (a, b, t) :: r, (a2, b2, t2) :: r2 =>
    a == a2 && b == b2 && TypeNode.same t t2 && TypeNode.sameFields r r2
  | _, _ => false

end

/-- The decision rule of the specification's unifier (§4.2) on the types computed
for the elements: unknown for no element, else unknown when the last and the
second-to-last type differ, else the last type. -/
def specLastPair : List TypeNode → TypeNode
  | [] => .scalar .unknown
  | [t] => t
  | [a, b] => if TypeNode.same a b then b else .scalar .unknown
  | _ :: b :: c :: rest => specLastPair (b :: c :: rest)

mutual

/-- The fields the specification's synthesizer (§4.1) builds for the entries of
a mapping; `none` stands for the failure `UnsupportedValueKind`. -/
def specFields : List (String × Value) → Option (List (String × String × TypeNode))
  | [] => some []
  | (k, v) :: rest =>
    match specClassify k v, specFields rest with
    | some t, some fs => some ((k, k, t) :: fs)
    | _, _ => none

/-- The classification of one value by the specification (§4.1), `name` being
the key of the field or the name of the enclosing sequence. -/
def specClassify (name : String) : Value → Option TypeNode
  | .num _ => some (.scalar .number)
  | .str _ => some (.scalar .string)
  | .obj m =>
    match specFields m with
    | some fs => some (.record name fs)
    | none => none
  | .arr s =>
    match specElems name s with
    | some ts => some (.sequence (specLastPair ts))
    | none => none
  | .null => none
  | .bool _ => none

/-- The types the specification's unifier (§4.2) computes for the elements of a
sequence. -/
def specElems (name : String) : List Value → Option (List TypeNode)
  | [] => some []
  | v :: rest =>
    match specClassify name v, specElems name rest with
    | some t, some ts => some (t :: ts)
    | _, _ => none

end

/-- The type name of a scalar field: `float64` for a number and `string` for a
string. -/
def scalarTypeName : Value → String
  | .num _ => "float64"
  | .str _ => "string"
  | _ => ""

/-- Whether a value is a numeric or a string scalar. -/
def Value.isScalar : Value → Bool
  | .num _ => true
  | .str _ => true
  | _ => false

mutual

/-- Whether every value of the tree (the value itself, the field values and the
sequence elements at any depth) is a number, a string, a mapping or a sequence. -/
def Value.supported : Value → Bool
  | .num _ => true
  | .str _ => true
  | .arr s => supportedElems s
  | .obj m => supportedFields m
  | .null => false
  | .bool _ => false

/-- Whether all field values of a mapping are supported, at any depth. -/
def supportedFields : List (String × Value) → Bool
  | [] => true
  | (_, v) :: rest => v.supported && supportedFields rest

/-- Whether all elements of a sequence are supported, at any depth. -/
def supportedElems : List Value → Bool
  | [] => true
  | v :: rest => v.supported && supportedElems rest

end

/-- An empty writer that rejects every write. -/
def Sink.closed : Sink := ⟨"", [], fun _ _ => some (0, "closed")⟩

/-- An empty writer that rejects the write number `n` (counted from 0) and no
other. -/
def Sink.rejecting (n : Nat) : Sink :=
  ⟨"", [], fun h _ => if h.length = n then some (0, "rejected") else none⟩

/-- The document with root mapping `name: "Ann", age: 30, tags: ["x", "y"]`, its
keys in that order. -/
def annDoc : List (String × Value) :=
  [("name", .str "Ann"), ("age", .num .float64), ("tags", .arr [.str "x", .str "y"])]

mutual

/-- The first value of an unsupported kind (null or boolean) met in the tree of
`v`, in depth-first order: fields and elements in iteration order, each one
explored fully before the next. -/
def Value.firstUnsupported : Value → Option Value
  | .num _ => none
  | .str _ => none
  | .arr s => firstUnsupportedElems s
  | .obj m => firstUnsupportedFields m
  | .null => some .null
  | .bool b => some (.bool b)

/-- The first unsupported value met in the fields of a mapping. -/
def firstUnsupportedFields : List (String × Value) → Option Value
  | [] => none
  | (_, v) :: rest =>
    match v.firstUnsupported with
    | some u => some u
    | none => firstUnsupportedFields rest

/-- The first unsupported value met in the elements of a sequence. -/
def firstUnsupportedElems : List Value → Option Value
  | [] => none
  | v :: rest =>
    match v.firstUnsupported with
    | some u => some u
    | none => firstUnsupportedElems rest

end

/-- The declarations that the entry `kv` of a mapping contributes after the
closing line of its record: for a nested mapping the whole text `printStruct`
writes for it, and nothing for any other value. -/
def nestedDecl (pfx : String) (kv : String × Value) : String :=
  match kv.2 with
  | .obj sub => (printStruct Sink.buffer (pfx ++ "\t") kv.1 sub).1.data
  | _ => ""

/-- The string `s` with only its first character uppercased and every other
character unchanged. -/
def capitalizeFirst (s : String) : String :=
  match s.data with
  | [] => ""
  | c :: cs => ⟨toTitle c :: cs⟩

/-! ## Lemmas on writers -/

theorem join_nil : String.join [] = "" := rfl

theorem join_append (a b : List String) :
    String.join (a ++ b) = String.join a ++ String.join b := by
  apply String.ext
  simp [String.data_join, String.data_append]

theorem join_cons (a : String) (b : List String) :
    String.join (a :: b) = a ++ String.join b := by
  apply String.ext
  simp [String.data_join, String.data_append]

theorem join_singleton (a : String) : String.join [a] = a := by
  apply String.ext
  simp [String.data_join]

theorem Sink.append_nil (o : Sink) : o.append [] = o := by
  cases o
  simp [Sink.append, join_nil]

theorem Sink.append_append (o : Sink) (a b : List String) :
    (o.append a).append b = o.append (a ++ b) := by
  simp [Sink.append, join_append, String.append_assoc]

theorem Sink.append_accepting (o : Sink) (ws : List String) (h : o.Accepting) :
    (o.append ws).Accepting := h

theorem Sink.buffer_accepting : Sink.buffer.Accepting := fun _ _ => rfl

theorem Sink.write_accepting (o : Sink) (p : String) (h : o.Accepting) :
    o.write p = (o.append [p], none) := by
  simp [Sink.write, h o.history p, Sink.append, join_singleton]

theorem ioCopy_accepting (o buf : Sink) (h : o.Accepting) :
    ioCopy o buf = (o.append (if buf.data = "" then [] else [buf.data]), none) := by
  unfold ioCopy
  split
  · simp [Sink.append_nil]
  · simp [Sink.write_accepting o _ h]

theorem finishStruct_accepting (name : String) (o buf : Sink) (h : o.Accepting) :
    finishStruct name o buf =
      (o.append (closeLine name :: (if buf.data = "" then [] else [buf.data])),
        .ok (title name)) := by
  simp only [finishStruct, Sink.write_accepting o _ h]
  rw [ioCopy_accepting _ _ (Sink.append_accepting o _ h)]
  simp [Sink.append_append]

/-! ## The procedures inside the loops -/

/-- The `map` case of the switch of `printStruct` is the recursive call
`printStruct(&buf, prefix+"\t", k, v)`. -/
theorem structCase_obj (pfx k : String) (m : List (String × Value)) (buf : Sink) :
    structCase pfx k (.obj m) buf = printStruct buf (pfx ++ "\t") k m := by
  rw [structCase, printStruct]

/-- The slice case of the switch of `printStruct` is the call
`printSlice(&buf, prefix+"\t", k, v)` followed by `t = "[]" + t`. -/
theorem structCase_arr (pfx k : String) (s : List Value) (buf : Sink) :
    structCase pfx k (.arr s) buf =
      match printSlice buf (pfx ++ "\t") k s with
      | (b, .error e) => (b, .error e)
      | (b, .ok t) => (b, .ok ("[]" ++ t)) := by
  rw [structCase, printSlice]
  split <;> simp_all

/-- The `map` case of the switch of `printSlice` is the call
`printStruct(&buf, prefix+"\t", singularize(name), v)`. -/
theorem sliceCase_obj (pfx name : String) (m : List (String × Value)) (buf : Sink) :
    sliceCase pfx name (.obj m) buf = printStruct buf (pfx ++ "\t") name m := by
  rw [sliceCase, printStruct]

/-- The slice case of the switch of `printSlice` is the recursive call
`printSlice(&buf, prefix+"\t", name, v)` followed by `t = "[]" + t`. -/
theorem sliceCase_arr (pfx name : String) (s : List Value) (buf : Sink) :
    sliceCase pfx name (.arr s) buf =
      match printSlice buf (pfx ++ "\t") name s with
      | (b, .error e) => (b, .error e)
      | (b, .ok t) => (b, .ok ("[]" ++ t)) := by
  rw [sliceCase, printSlice]
  split <;> simp_all

/-! ## Behaviour on accepting writers

On writers that accept every write, each loop and each switch appends a text
that depends on the values only, and returns a result that depends on the
values only. -/

theorem printStruct_of_loop (pfx name : String) (m : List (String × Value)) (ws wb : List String)
    (r : Option Err)
    (h : ∀ o buf : Sink, o.Accepting → buf.Accepting →
      structLoop pfx m o buf = (o.append ws, buf.append wb, r)) :
    ∃ (ws1 : List String) (r1 : Except Err String), ∀ o : Sink, o.Accepting →
      printStruct o pfx name m = (o.append ws1, r1) := by
  cases r with
  | some e =>
    refine ⟨openLine name :: ws, .error e, fun o ho => ?_⟩
    simp only [printStruct, Sink.write_accepting o _ ho]
    rw [h _ _ (Sink.append_accepting o _ ho) Sink.buffer_accepting]
    simp [Sink.append_append]
  | none =>
    refine ⟨openLine name :: (ws ++ closeLine name ::
      (if (Sink.buffer.append wb).data = "" then [] else [(Sink.buffer.append wb).data])),
      .ok (title name), fun o ho => ?_⟩
    simp only [printStruct, Sink.write_accepting o _ ho]
    rw [h _ _ (Sink.append_accepting o _ ho) Sink.buffer_accepting]
    simp only []
    rw [finishStruct_accepting _ _ _ (Sink.append_accepting _ _ (Sink.append_accepting o _ ho))]
    simp [Sink.append_append]

theorem printSlice_of_loop (pfx name : String) (s : List Value) (wb : List String)
    (r : Except Err (String × String))
    (h : ∀ buf : Sink, buf.Accepting → sliceLoop pfx name s "" "" buf = (buf.append wb, r)) :
    ∃ (r1 : Except Err String), ∀ o : Sink, printSlice o pfx name s = (o, r1) := by
  cases r with
  | error e =>
    refine ⟨.error e, fun o => ?_⟩
    simp only [printSlice]
    rw [h _ Sink.buffer_accepting]
  | ok tl =>
    refine ⟨.ok (finishSlice tl.1 tl.2), fun o => ?_⟩
    simp only [printSlice]
    rw [h _ Sink.buffer_accepting]

mutual

theorem structLoop_frame (pfx : String) : ∀ (m : List (String × Value)),
    ∃ (ws wb : List String) (r : Option Err), ∀ o buf : Sink, o.Accepting → buf.Accepting →
      structLoop pfx m o buf = (o.append ws, buf.append wb, r)
  | [] => ⟨[], [], none, fun o buf _ _ => by simp [structLoop, Sink.append_nil]⟩
  | (k, v) :: rest => by
    obtain ⟨wb1, r1, h1⟩ := structCase_frame pfx k v
    obtain ⟨ws2, wb2, r2, h2⟩ := structLoop_frame pfx rest
    cases r1 with
    | error e =>
      refine ⟨[], wb1, some e, fun o buf _ hb => ?_⟩
      simp [structLoop, h1 buf hb, Sink.append_nil]
    | ok t =>
      refine ⟨fieldLine pfx k t :: ws2, wb1 ++ wb2, r2, fun o buf ho hb => ?_⟩
      simp only [structLoop, h1 buf hb, Sink.write_accepting o _ ho]
      rw [h2 _ _ (Sink.append_accepting o _ ho) (Sink.append_accepting buf _ hb)]
      simp [Sink.append_append]

theorem structCase_frame (pfx k : String) : ∀ (v : Value),
    ∃ (wb : List String) (r : Except Err String), ∀ buf : Sink, buf.Accepting →
      structCase pfx k v buf = (buf.append wb, r)
  | .num _ => ⟨[], .ok "float64", fun buf _ => by simp [structCase, Sink.append_nil]⟩
  | .str _ => ⟨[], .ok "string", fun buf _ => by simp [structCase, Sink.append_nil]⟩
  | .null => ⟨[], .error (unrecognized .null), fun buf _ => by
      simp [structCase, Sink.append_nil]⟩
  | .bool b => ⟨[], .error (unrecognized (.bool b)), fun buf _ => by
      simp [structCase, Sink.append_nil]⟩
  | .arr s => by
    obtain ⟨wb, r, h⟩ := sliceLoop_frame (pfx ++ "\t") k s "" ""
    obtain ⟨r1, h1⟩ := printSlice_of_loop (pfx ++ "\t") k s wb r h
    cases r1 with
    | error e =>
      refine ⟨[], .error e, fun buf _ => ?_⟩
      rw [structCase_arr, h1 buf]
      simp [Sink.append_nil]
    | ok t =>
      refine ⟨[], .ok ("[]" ++ t), fun buf _ => ?_⟩
      rw [structCase_arr, h1 buf]
      simp [Sink.append_nil]
  | .obj m => by
    obtain ⟨ws, wb, r, h⟩ := structLoop_frame (pfx ++ "\t") m
    obtain ⟨ws1, r1, h1⟩ := printStruct_of_loop (pfx ++ "\t") k m ws wb r h
    exact ⟨ws1, r1, fun buf hb => by rw [structCase_obj, h1 buf hb]⟩

theorem sliceLoop_frame (pfx name : String) : ∀ (s : List Value) (t last : String),
    ∃ (wb : List String) (r : Except Err (String × String)), ∀ buf : Sink, buf.Accepting →
      sliceLoop pfx name s t last buf = (buf.append wb, r)
  | [], t, last => ⟨[], .ok (t, last), fun buf _ => by simp [sliceLoop, Sink.append_nil]⟩
  | v :: rest, t, last => by
    obtain ⟨wb1, r1, h1⟩ := sliceCase_frame pfx name v
    cases r1 with
    | error e =>
      refine ⟨wb1, .error e, fun buf hb => ?_⟩
      simp [sliceLoop, h1 buf hb]
    | ok t1 =>
      obtain ⟨wb2, r2, h2⟩ := sliceLoop_frame pfx name rest t1 t
      refine ⟨wb1 ++ wb2, r2, fun buf hb => ?_⟩
      simp only [sliceLoop, h1 buf hb]
      rw [h2 _ (Sink.append_accepting buf _ hb)]
      simp [Sink.append_append]

theorem sliceCase_frame (pfx name : String) : ∀ (v : Value),
    ∃ (wb : List String) (r : Except Err String), ∀ buf : Sink, buf.Accepting →
      sliceCase pfx name v buf = (buf.append wb, r)
  | .num _ => ⟨[], .ok "float64", fun buf _ => by simp [sliceCase, Sink.append_nil]⟩
  | .str _ => ⟨[], .ok "string", fun buf _ => by simp [sliceCase, Sink.append_nil]⟩
  | .null => ⟨[], .error (unrecognized .null), fun buf _ => by
      simp [sliceCase, Sink.append_nil]⟩
  | .bool b => ⟨[], .error (unrecognized (.bool b)), fun buf _ => by
      simp [sliceCase, Sink.append_nil]⟩
  | .arr s => by
    obtain ⟨wb, r, h⟩ := sliceLoop_frame (pfx ++ "\t") name s "" ""
    obtain ⟨r1, h1⟩ := printSlice_of_loop (pfx ++ "\t") name s wb r h
    cases r1 with
    | error e =>
      refine ⟨[], .error e, fun buf _ => ?_⟩
      rw [sliceCase_arr, h1 buf]
      simp [Sink.append_nil]
    | ok t =>
      refine ⟨[], .ok ("[]" ++ t), fun buf _ => ?_⟩
      rw [sliceCase_arr, h1 buf]
      simp [Sink.append_nil]
  | .obj m => by
    obtain ⟨ws, wb, r, h⟩ := structLoop_frame (pfx ++ "\t") m
    obtain ⟨ws1, r1, h1⟩ := printStruct_of_loop (pfx ++ "\t") name m ws wb r h
    exact ⟨ws1, r1, fun buf hb => by rw [sliceCase_obj, h1 buf hb]⟩

end

/-! ## The text of a record on any writer -/

theorem Sink.write_history (o : Sink) (p : String) :
    (o.write p).1.history = o.history ++ [p] := by
  unfold Sink.write
  split <;> rfl

theorem Sink.write_respond (o : Sink) (p : String) :
    (o.write p).1.respond = o.respond := by
  unfold Sink.write
  split <;> rfl

theorem Sink.write_data_of_ok (o : Sink) (p : String) (h : (o.write p).2 = none) :
    (o.write p).1.data = o.data ++ p := by
  unfold Sink.write at h ⊢
  split <;> simp_all

theorem Sink.buffer_append_history (ws : List String) :
    (Sink.buffer.append ws).history = ws := by
  simp [Sink.append, Sink.buffer]

theorem Sink.buffer_append_data (ws : List String) :
    (Sink.buffer.append ws).data = String.join ws := by
  simp [Sink.append, Sink.buffer]

/-- On an accepting buffer the switch of `printStruct` does what it does on a
fresh buffer. -/
theorem structCase_buf (pfx k : String) (v : Value) (buf : Sink) (hb : buf.Accepting) :
    structCase pfx k v buf =
      (buf.append (structCase pfx k v Sink.buffer).1.history,
        (structCase pfx k v Sink.buffer).2) := by
  obtain ⟨wb, r, h⟩ := structCase_frame pfx k v
  rw [h buf hb, h Sink.buffer Sink.buffer_accepting, Sink.buffer_append_history]

/-- On an accepting buffer the switch of `printSlice` does what it does on a
fresh buffer. -/
theorem sliceCase_buf (pfx name : String) (v : Value) (buf : Sink) (hb : buf.Accepting) :
    sliceCase pfx name v buf =
      (buf.append (sliceCase pfx name v Sink.buffer).1.history,
        (sliceCase pfx name v Sink.buffer).2) := by
  obtain ⟨wb, r, h⟩ := sliceCase_frame pfx name v
  rw [h buf hb, h Sink.buffer Sink.buffer_accepting, Sink.buffer_append_history]

/-- What a fresh buffer holds after `printStruct` is the concatenation of the
writes it received. -/
theorem printStruct_buffer_data (pfx name : String) (m : List (String × Value)) :
    (printStruct Sink.buffer pfx name m).1.data =
      String.join (printStruct Sink.buffer pfx name m).1.history := by
  obtain ⟨ws, wb, r, h⟩ := structLoop_frame pfx m
  obtain ⟨ws1, r1, h1⟩ := printStruct_of_loop pfx name m ws wb r h
  rw [h1 Sink.buffer Sink.buffer_accepting, Sink.buffer_append_history,
    Sink.buffer_append_data]

/-- One turn of the loop of `printStruct`, the local buffer being accepting. -/
theorem structLoop_cons (pfx k : String) (v : Value) (rest : List (String × Value))
    (o buf : Sink) (hb : buf.Accepting) :
    structLoop pfx ((k, v) :: rest) o buf =
      match (structCase pfx k v Sink.buffer).2 with
      | .error e => (o, buf.append (structCase pfx k v Sink.buffer).1.history, some e)
      | .ok t =>
        match o.write (fieldLine pfx k t) with
        | (o1, some e) =>
          (o1, buf.append (structCase pfx k v Sink.buffer).1.history, some (.write e))
        | (o1, none) =>
          structLoop pfx rest o1 (buf.append (structCase pfx k v Sink.buffer).1.history) := by
  rw [structLoop, structCase_buf pfx k v buf hb]
  cases (structCase pfx k v Sink.buffer).2 <;> rfl

/-- A loop of `printStruct` that ends without error has written the field lines
of all entries to `o`, all of them accepted, and the nested declarations to the
buffer. -/
theorem structLoop_ok (pfx : String) : ∀ (m : List (String × Value)) (o buf : Sink),
    buf.Accepting → (structLoop pfx m o buf).2.2 = none →
    (∀ kv ∈ m, ∃ t, (structCase pfx kv.1 kv.2 Sink.buffer).2 = .ok t) ∧
    (structLoop pfx m o buf).1.history = o.history ++ fieldLines pfx m ∧
    (structLoop pfx m o buf).1.data = o.data ++ String.join (fieldLines pfx m) ∧
    (structLoop pfx m o buf).1.respond = o.respond ∧
    (structLoop pfx m o buf).2.1 = buf.append (nestedWrites pfx m)
  | [], o, buf, _, _ => by
    simp [structLoop, fieldLines, nestedWrites, join_nil, Sink.append_nil]
  | (k, v) :: rest, o, buf, hb, h => by
    rw [structLoop_cons pfx k v rest o buf hb] at h ⊢
    cases hc : (structCase pfx k v Sink.buffer).2 with
    | error e => simp [hc] at h
    | ok t =>
      simp only [hc] at h ⊢
      cases hw : (o.write (fieldLine pfx k t)).2 with
      | some e =>
        have : o.write (fieldLine pfx k t) = ((o.write (fieldLine pfx k t)).1, some e) := by
          rw [← hw]
        rw [this] at h
        simp at h
      | none =>
        have hw1 : o.write (fieldLine pfx k t) = ((o.write (fieldLine pfx k t)).1, none) := by
          rw [← hw]
        rw [hw1] at h ⊢
        simp only [] at h ⊢
        obtain ⟨h1, h2, h3, h4, h5⟩ := structLoop_ok pfx rest _ _
          (Sink.append_accepting buf _ hb) h
        have hn : fieldTypeName pfx k v = t := by simp [fieldTypeName, hc]
        refine ⟨?_, ?_, ?_, ?_, ?_⟩
        · intro kv hkv
          rcases List.mem_cons.1 hkv with rfl | hkv
          · exact ⟨t, hc⟩
          · exact h1 kv hkv
        · rw [h2, Sink.write_history]
          simp [fieldLines, hn]
        · rw [h3, Sink.write_data_of_ok o _ hw]
          simp [fieldLines, hn, join_cons, String.append_assoc]
        · rw [h4, Sink.write_respond]
        · rw [h5, Sink.append_append]
          simp [nestedWrites]

theorem nestedWrites_append (pfx : String) (a b : List (String × Value)) :
    nestedWrites pfx (a ++ b) = nestedWrites pfx a ++ nestedWrites pfx b := by
  simp [nestedWrites]

theorem nestedWrites_cons (pfx : String) (kv : String × Value) (b : List (String × Value)) :
    nestedWrites pfx (kv :: b) =
      (structCase pfx kv.1 kv.2 Sink.buffer).1.history ++ nestedWrites pfx b := by
  simp [nestedWrites]

/-- The end of a successful `printStruct`: the closing line, then one write of
the content of the buffer unless it is empty. -/
theorem finishStruct_ok (name : String) (o buf : Sink) (t : String)
    (h : (finishStruct name o buf).2 = .ok t) :
    t = title name ∧
    (finishStruct name o buf).1.history =
      o.history ++ closeLine name :: (if buf.data = "" then [] else [buf.data]) := by
  unfold finishStruct ioCopy at h ⊢
  by_cases hd : buf.data = ""
  · simp only [hd, if_true] at h ⊢
    simp only [Except.ok.injEq] at h
    simp [h, Sink.write_history]
  · simp only [hd, if_false] at h ⊢
    cases hw : ((o.write (closeLine name)).1.write buf.data).2 with
    | some e =>
      have hw1 : (o.write (closeLine name)).1.write buf.data =
          (((o.write (closeLine name)).1.write buf.data).1, some e) := by rw [← hw]
      rw [hw1] at h
      simp at h
    | none =>
      have hw1 : (o.write (closeLine name)).1.write buf.data =
          (((o.write (closeLine name)).1.write buf.data).1, none) := by rw [← hw]
      rw [hw1] at h ⊢
      simp only [Except.ok.injEq] at h
      simp [h, Sink.write_history]

/-- The writes of a successful `printStruct`, on any writer: the opening line,
the field lines in order, the closing line, and then in one write the
declarations of the records nested in its fields, when there are any. -/
theorem printStruct_ok (o : Sink) (pfx name : String) (m : List (String × Value)) (t : String)
    (h : (printStruct o pfx name m).2 = .ok t) :
    t = title name ∧
    (∀ kv ∈ m, ∃ t1, (structCase pfx kv.1 kv.2 Sink.buffer).2 = .ok t1) ∧
    (printStruct o pfx name m).1.history =
      o.history ++ openLine name :: (fieldLines pfx m ++ closeLine name ::
        (if String.join (nestedWrites pfx m) = "" then []
         else [String.join (nestedWrites pfx m)])) := by
  unfold printStruct at h ⊢
  have key := structLoop_ok pfx m (o.write (openLine name)).1 Sink.buffer Sink.buffer_accepting
  rcases hL : structLoop pfx m (o.write (openLine name)).1 Sink.buffer with ⟨o1, buf1, r⟩
  rw [hL] at key h
  cases r with
  | some e => simp at h
  | none =>
    simp only [] at h ⊢
    obtain ⟨h1, h2, -, -, h5⟩ := key rfl
    simp only [] at h2 h5
    obtain ⟨ht, hh⟩ := finishStruct_ok name o1 buf1 t h
    refine ⟨ht, h1, ?_⟩
    rw [hh, h2, h5, Sink.buffer_append_data, Sink.write_history]
    simp

/-- What an accepting writer holds after a successful `printStruct`: what it
held, then the record's own declaration, then the nested declarations. -/
theorem printStruct_ok_data (o : Sink) (pfx name : String) (m : List (String × Value))
    (t : String) (ho : o.Accepting) (h : (printStruct o pfx name m).2 = .ok t) :
    (printStruct o pfx name m).1.data =
      o.data ++ (openLine name ++ String.join (fieldLines pfx m) ++ closeLine name ++
        String.join (nestedWrites pfx m)) := by
  obtain ⟨-, -, hh⟩ := printStruct_ok o pfx name m t h
  obtain ⟨ws, wb, r, hf⟩ := structLoop_frame pfx m
  obtain ⟨ws1, r1, h1⟩ := printStruct_of_loop pfx name m ws wb r hf
  rw [h1 o ho] at hh ⊢
  simp only [Sink.append, List.append_cancel_left_eq] at hh ⊢
  rw [hh]
  by_cases hn : String.join (nestedWrites pfx m) = ""
  · simp [hn, join_cons, join_append, join_nil, String.append_assoc]
  · simp [hn, join_cons, join_append, join_nil, String.append_assoc]

theorem openLine_length_pos (name : String) : 0 < (openLine name).length := by
  have h : "type ".length = 5 := by decide
  simp only [openLine, String.length_append, h]
  omega

/-- The nested declarations of a record with a field `k` holding the mapping
`sub` contain the whole text that `printStruct` writes for `sub`. -/
theorem nestedWrites_obj (pfx k : String) (pre post sub : List (String × Value)) :
    String.join (nestedWrites pfx (pre ++ (k, .obj sub) :: post)) =
      String.join (nestedWrites pfx pre) ++
        (printStruct Sink.buffer (pfx ++ "\t") k sub).1.data ++
        String.join (nestedWrites pfx post) := by
  rw [nestedWrites_append, nestedWrites_cons, join_append, join_append, structCase_obj,
    ← printStruct_buffer_data, String.append_assoc]

/-! ## Claims -/

/-- C1 (amended): for every mapping that renders successfully and has a field
`k` whose value is a nested mapping `sub`, the text written by `printStruct`
places the nested record's whole declaration later than the declaration of the
record that references it: the writes are the opening line, the field lines and
the closing line of the referencing record, and then one write that contains
the text `printStruct` produces for `sub`, which starts with the opening line of
the nested record. -/
theorem C1_nested_declaration_after_parent (o : Sink) (pfx name k : String)
    (pre post sub : List (String × Value)) (t : String)
    (h : (printStruct o pfx name (pre ++ (k, .obj sub) :: post)).2 = .ok t) :
    ∃ before after : String,
      (printStruct o pfx name (pre ++ (k, .obj sub) :: post)).1.history =
        o.history ++ openLine name :: (fieldLines pfx (pre ++ (k, .obj sub) :: post) ++
          [closeLine name,
            before ++ (printStruct Sink.buffer (pfx ++ "\t") k sub).1.data ++ after]) ∧
      (o.Accepting →
        (printStruct o pfx name (pre ++ (k, .obj sub) :: post)).1.data =
          o.data ++ (openLine name ++
            String.join (fieldLines pfx (pre ++ (k, .obj sub) :: post)) ++ closeLine name ++
            (before ++ (printStruct Sink.buffer (pfx ++ "\t") k sub).1.data ++ after))) ∧
      (printStruct Sink.buffer (pfx ++ "\t") k sub).1.data =
        openLine k ++ String.join (fieldLines (pfx ++ "\t") sub) ++ closeLine k ++
          String.join (nestedWrites (pfx ++ "\t") sub) := by
  obtain ⟨-, hall, hh⟩ := printStruct_ok o pfx name _ t h
  obtain ⟨t1, ht1⟩ := hall (k, .obj sub) (by simp)
  rw [structCase_obj] at ht1
  have hsub := printStruct_ok_data Sink.buffer (pfx ++ "\t") k sub t1 Sink.buffer_accepting ht1
  have hsub1 : (printStruct Sink.buffer (pfx ++ "\t") k sub).1.data =
      openLine k ++ String.join (fieldLines (pfx ++ "\t") sub) ++ closeLine k ++
        String.join (nestedWrites (pfx ++ "\t") sub) := by
    rw [hsub]
    simp [Sink.buffer]
  have hne : String.join (nestedWrites pfx (pre ++ (k, .obj sub) :: post)) ≠ "" := by
    rw [nestedWrites_obj, hsub1]
    intro hz
    have := congrArg String.length hz
    have hpos := openLine_length_pos k
    simp only [String.length_append] at this
    have h0 : "".length = 0 := rfl
    omega
  refine ⟨String.join (nestedWrites pfx pre), String.join (nestedWrites pfx post), ?_, ?_, hsub1⟩
  · rw [hh, if_neg hne, nestedWrites_obj]
  · intro ho
    rw [printStruct_ok_data o pfx name _ t ho h, nestedWrites_obj]

/-- C1, witness: the document `user: (id: 1)` renders successfully and the
declaration of `User` is written after the closing line of `TopLevelElement`. -/
theorem C1_nested_declaration_after_parent_witness :
    (printStruct Sink.buffer "" "TopLevelElement" ([] ++ ("user", .obj [("id", .num .float64)])
      :: [])).2 = .ok "TopLevelElement" ∧
    ∃ before after : String,
      (printStruct Sink.buffer "" "TopLevelElement"
          ([] ++ ("user", .obj [("id", .num .float64)]) :: [])).1.history =
        Sink.buffer.history ++ openLine "TopLevelElement" ::
          (fieldLines "" ([] ++ ("user", .obj [("id", .num .float64)]) :: []) ++
          [closeLine "TopLevelElement",
            before ++ (printStruct Sink.buffer ("" ++ "\t") "user"
              [("id", .num .float64)]).1.data ++ after]) ∧
      (Sink.buffer.Accepting →
        (printStruct Sink.buffer "" "TopLevelElement"
            ([] ++ ("user", .obj [("id", .num .float64)]) :: [])).1.data =
          Sink.buffer.data ++ (openLine "TopLevelElement" ++
            String.join (fieldLines "" ([] ++ ("user", .obj [("id", .num .float64)]) :: [])) ++
            closeLine "TopLevelElement" ++
            (before ++ (printStruct Sink.buffer ("" ++ "\t") "user"
              [("id", .num .float64)]).1.data ++ after))) ∧
      (printStruct Sink.buffer ("" ++ "\t") "user" [("id", .num .float64)]).1.data =
        openLine "user" ++ String.join (fieldLines ("" ++ "\t") [("id", .num .float64)]) ++
          closeLine "user" ++ String.join (nestedWrites ("" ++ "\t") [("id", .num .float64)]) :=
  ⟨rfl, C1_nested_declaration_after_parent Sink.buffer "" "TopLevelElement" "user" [] []
    [("id", .num .float64)] "TopLevelElement" rfl⟩

/-- C1, counterexample: for the root mapping `user: (id: 1)` named
`TopLevelElement` the text written is the declaration of `TopLevelElement`
(field `User User`) followed by the declaration of `User` (field `Id float64`);
the declaration of `User` does not appear before that of `TopLevelElement`. -/
theorem C1_counterexample :
    (printStruct Sink.buffer "" "TopLevelElement" userDoc).2 = .ok "TopLevelElement" ∧
    (printStruct Sink.buffer "" "TopLevelElement" userDoc).1.data = rootDecl ++ userDecl ∧
    occursBefore (printStruct Sink.buffer "" "TopLevelElement" userDoc).1.data
      userDecl rootDecl = false ∧
    occursBefore (printStruct Sink.buffer "" "TopLevelElement" userDoc).1.data
      rootDecl userDecl = true := by
  refine ⟨rfl, rfl, ?_, ?_⟩ <;> decide

/-- C2 (failing input): for the root mapping `xs: [(a: 1)]` the call succeeds and
the text written is the declaration of `TopLevelElement` alone, with the field
`Xs []Xs`; the mapping inside the sequence gets no declaration, so the text holds
no opening line for the record `Xs` its field refers to. -/
theorem C2_sequence_record_not_declared :
    (printStruct Sink.buffer "" "TopLevelElement" seqDoc).2 = .ok "TopLevelElement" ∧
    (printStruct Sink.buffer "" "TopLevelElement" seqDoc).1.data =
      openLine "TopLevelElement" ++ fieldLine "" "xs" "[]Xs" ++ closeLine "TopLevelElement" ∧
    offsetOf (openLine "xs") (printStruct Sink.buffer "" "TopLevelElement" seqDoc).1.data = none ∧
    (printSlice Sink.buffer "\t" "xs" [.obj [("a", .num .float64)]]).1.data = "" := by
  refine ⟨rfl, rfl, ?_, rfl⟩
  decide

/-- C3 (failing input): for every writer, prefix and name, `printSlice` applied
to the empty sequence returns the empty type name, which is not the marker
`interface{}`; a field `tags` holding an empty sequence gets the type `[]`. -/
theorem C3_empty_sequence_type (o : Sink) (pfx name : String) :
    printSlice o pfx name [] = (o, .ok "") ∧
    (Except.ok "" : Except Err String) ≠ .ok anyType ∧
    (printStruct Sink.buffer "" "TopLevelElement" [("tags", .arr [])]).1.data =
      openLine "TopLevelElement" ++ fieldLine "" "tags" "[]" ++ closeLine "TopLevelElement" := by
  refine ⟨rfl, ?_, rfl⟩
  intro h
  injection h with h
  exact absurd h (by decide)

/-- The loop of `printSlice` over elements that all get the same type name `c`
without touching the buffer. -/
theorem sliceLoop_uniform (pfx name c : String) :
    ∀ (v : Value) (rest : List Value) (t last : String) (buf : Sink),
      (∀ w ∈ v :: rest, ∀ b : Sink, sliceCase pfx name w b = (b, .ok c)) →
      sliceLoop pfx name (v :: rest) t last buf = (buf, .ok (c, if rest.isEmpty then t else c))
  | v, [], t, last, buf, h => by
    simp [sliceLoop, h v (by simp) buf]
  | v, w :: rest, t, last, buf, h => by
    have ih := sliceLoop_uniform pfx name c w rest c t buf
      (fun x hx b => h x (List.mem_cons_of_mem _ hx) b)
    rw [sliceLoop, h v (by simp) buf]
    simp only []
    rw [ih]
    split <;> simp

/-- The result of `printSlice` on a non-empty sequence whose elements all get
the same type name `c` without touching the buffer. -/
theorem printSlice_uniform (o : Sink) (pfx name c : String) (s : List Value) (hs : s ≠ [])
    (h : ∀ w ∈ s, ∀ b : Sink, sliceCase pfx name w b = (b, .ok c)) :
    (printSlice o pfx name s).2 = .ok c := by
  cases s with
  | nil => exact absurd rfl hs
  | cons v rest =>
    rw [printSlice, sliceLoop_uniform pfx name c v rest "" "" Sink.buffer h]
    cases rest with
    | nil => simp [finishSlice]
    | cons w rest => simp [finishSlice]

/-- C4: for every sequence of length at least 1 whose elements are all numeric
scalars `printSlice` returns `float64`, and for every sequence of length at
least 1 whose elements are all strings it returns `string`, whatever the writer,
the prefix, the name and the length. -/
theorem C4_uniform_scalar_sequence (o : Sink) (pfx name : String) (s : List Value) :
    (s ≠ [] → (∀ v ∈ s, ∃ k, v = .num k) → (printSlice o pfx name s).2 = .ok "float64") ∧
    (s ≠ [] → (∀ v ∈ s, ∃ x, v = .str x) → (printSlice o pfx name s).2 = .ok "string") := by
  constructor
  · intro hs h
    refine printSlice_uniform o pfx name "float64" s hs (fun w hw b => ?_)
    obtain ⟨k, rfl⟩ := h w hw
    simp [sliceCase]
  · intro hs h
    refine printSlice_uniform o pfx name "string" s hs (fun w hw b => ?_)
    obtain ⟨x, rfl⟩ := h w hw
    simp [sliceCase]

/-- C4, witness: the sequences `[1, 2.5, 3]` and `["x"]`. -/
theorem C4_uniform_scalar_sequence_witness :
    ([Value.num .int, .num .float64, .num .uint8] ≠ [] ∧
      (∀ v ∈ [Value.num .int, .num .float64, .num .uint8], ∃ k, v = .num k) ∧
      (printSlice Sink.buffer "" "xs" [.num .int, .num .float64, .num .uint8]).2 =
        .ok "float64") ∧
    ([Value.str "x"] ≠ [] ∧ (∀ v ∈ [Value.str "x"], ∃ x, v = .str x) ∧
      (printSlice Sink.buffer "" "xs" [.str "x"]).2 = .ok "string") :=
  ⟨⟨by simp, by simp,
      (C4_uniform_scalar_sequence Sink.buffer "" "xs" _).1 (by simp) (by simp)⟩,
    ⟨by simp, by simp,
      (C4_uniform_scalar_sequence Sink.buffer "" "xs" _).2 (by simp) (by simp)⟩⟩

/-- C6: the unifier is order-sensitive.  On `[1, 1, "x"]` `printSlice` returns
the marker `interface{}` (the last pair number, string differs), on
`[1, "x", "x"]` it returns `string` (the last pair agrees), and the two results
differ. -/
theorem C6_order_sensitive (o : Sink) (pfx name x : String) (k1 k2 : NumKind) :
    (printSlice o pfx name [.num k1, .num k2, .str x]).2 = .ok anyType ∧
    (printSlice o pfx name [.num k1, .str x, .str x]).2 = .ok "string" ∧
    (printSlice o pfx name [.num k1, .num k2, .str x]).2 ≠
      (printSlice o pfx name [.num k1, .str x, .str x]).2 := by
  have h1 : (printSlice o pfx name [.num k1, .num k2, .str x]).2 = .ok anyType := rfl
  have h2 : (printSlice o pfx name [.num k1, .str x, .str x]).2 = .ok "string" := rfl
  refine ⟨h1, h2, ?_⟩
  rw [h1, h2]
  intro h
  injection h with h
  exact absurd h (by decide)

/-- The result of `printSlice` from the result of its loop. -/
theorem printSlice_result (o : Sink) (pfx name : String) (s : List Value) :
    (printSlice o pfx name s).2 =
      match (sliceLoop pfx name s "" "" Sink.buffer).2 with
      | .error e => .error e
      | .ok tl => .ok (finishSlice tl.1 tl.2) := by
  unfold printSlice
  rcases sliceLoop pfx name s "" "" Sink.buffer with ⟨b, r⟩
  cases r <;> rfl

/-- One turn of the loop of `printSlice`, the local buffer being accepting. -/
theorem sliceLoop_cons (pfx name : String) (v : Value) (rest : List Value) (t last : String)
    (buf : Sink) (hb : buf.Accepting) :
    sliceLoop pfx name (v :: rest) t last buf =
      match elemType pfx name v with
      | .error e => (buf.append (sliceCase pfx name v Sink.buffer).1.history, .error e)
      | .ok t1 =>
        sliceLoop pfx name rest t1 t (buf.append (sliceCase pfx name v Sink.buffer).1.history) := by
  rw [sliceLoop, sliceCase_buf pfx name v buf hb, elemType]
  cases (sliceCase pfx name v Sink.buffer).2 <;> rfl

/-- After a loop of `printSlice` over at least two elements that all classify,
`t` is the type name of the last element and `last` that of the one before. -/
theorem sliceLoop_last_two (pfx name : String) (a b : Value) (ta tb : String)
    (ha : elemType pfx name a = .ok ta) (hb : elemType pfx name b = .ok tb) :
    ∀ (p : List Value) (t last : String) (buf : Sink), buf.Accepting →
      (∀ v ∈ p, ∃ t1, elemType pfx name v = .ok t1) →
      (sliceLoop pfx name (p ++ [a, b]) t last buf).2 = .ok (tb, ta)
  | [], t, last, buf, hbuf, _ => by
    rw [List.nil_append, sliceLoop_cons pfx name a _ t last buf hbuf, ha]
    simp only []
    rw [sliceLoop_cons pfx name b _ ta t _ (Sink.append_accepting buf _ hbuf), hb]
    simp [sliceLoop]
  | v :: p, t, last, buf, hbuf, hp => by
    obtain ⟨t1, ht1⟩ := hp v (by simp)
    rw [List.cons_append, sliceLoop_cons pfx name v _ t last buf hbuf, ht1]
    exact sliceLoop_last_two pfx name a b ta tb ha hb p t1 t _
      (Sink.append_accepting buf _ hbuf) (fun w hw => hp w (List.mem_cons_of_mem _ hw))

/-- C5 (amended): for every name and every sequence of at least two elements
that all classify successfully, `printSlice` returns the marker `interface{}` if
the type names computed for the last and the second-to-last element differ as
rendered names (the second-to-last one being non-empty), and otherwise returns
the type name computed for the last element. -/
theorem C5_last_pair_of_names (o : Sink) (pfx name : String) (p : List Value) (a b : Value)
    (ta tb : String)
    (hp : ∀ v ∈ p, ∃ t, elemType pfx name v = .ok t)
    (ha : elemType pfx name a = .ok ta) (hb : elemType pfx name b = .ok tb)
    (hne : ta ≠ "") :
    (printSlice o pfx name (p ++ [a, b])).2 = .ok (if ta ≠ tb then anyType else tb) := by
  rw [printSlice_result,
    sliceLoop_last_two pfx name a b ta tb ha hb p "" "" Sink.buffer Sink.buffer_accepting hp]
  simp [finishSlice, hne]

/-- C5, witness: the sequence `[(a: 1), "x", 2]` named `xs`, whose last two
elements get the names `string` and `float64`. -/
theorem C5_last_pair_of_names_witness :
    (∀ v ∈ [Value.obj [("a", .num .float64)]], ∃ t, elemType "" "xs" v = .ok t) ∧
    elemType "" "xs" (.str "x") = .ok "string" ∧
    elemType "" "xs" (.num .float64) = .ok "float64" ∧
    "string" ≠ "" ∧
    (printSlice Sink.buffer "" "xs"
        ([Value.obj [("a", .num .float64)]] ++ [.str "x", .num .float64])).2 =
      .ok (if "string" ≠ "float64" then anyType else "float64") :=
  ⟨fun v hv => ⟨"Xs", by rw [List.mem_singleton.1 hv]; rfl⟩, rfl, rfl, by decide,
    C5_last_pair_of_names Sink.buffer "" "xs" [Value.obj [("a", .num .float64)]]
      (.str "x") (.num .float64) "string" "float64"
      (fun v hv => ⟨"Xs", by rw [List.mem_singleton.1 hv]; rfl⟩) rfl rfl (by decide)⟩

/-- C5, counterexample: in the sequence `[(a: 1), (b: "x")]` named `xs` both
elements classify, and the type nodes of the specification computed for them
differ structurally (their fields differ), yet `printSlice` returns the record
name `Xs` and not the marker.  In the sequence `[(a: 1), 2]` with the empty name
the two type nodes differ as well and `printSlice` returns `float64`. -/
theorem C5_counterexample :
    specClassify "xs" (.obj [("a", .num .float64)]) =
      some (.record "xs" [("a", "a", .scalar .number)]) ∧
    specClassify "xs" (.obj [("b", .str "x")]) =
      some (.record "xs" [("b", "b", .scalar .string)]) ∧
    TypeNode.record "xs" [("a", "a", .scalar .number)] ≠
      TypeNode.record "xs" [("b", "b", .scalar .string)] ∧
    TypeNode.same (.record "xs" [("a", "a", .scalar .number)])
      (.record "xs" [("b", "b", .scalar .string)]) = false ∧
    elemType "" "xs" (.obj [("a", .num .float64)]) = .ok "Xs" ∧
    elemType "" "xs" (.obj [("b", .str "x")]) = .ok "Xs" ∧
    (printSlice Sink.buffer "" "xs" [.obj [("a", .num .float64)], .obj [("b", .str "x")]]).2 =
      .ok "Xs" ∧
    (Except.ok "Xs" : Except Err String) ≠ .ok anyType ∧
    specClassify "" (.obj [("a", .num .float64)]) =
      some (.record "" [("a", "a", .scalar .number)]) ∧
    specClassify "" (.num .float64) = some (.scalar .number) ∧
    TypeNode.record "" [("a", "a", .scalar .number)] ≠ .scalar .number ∧
    (printSlice Sink.buffer "" "" [.obj [("a", .num .float64)], .num .float64]).2 =
      .ok "float64" ∧
    (Except.ok "float64" : Except Err String) ≠ .ok anyType := by
  refine ⟨rfl, rfl, ?_, rfl, rfl, rfl, rfl, ?_, rfl, rfl, ?_, rfl, ?_⟩
  · intro h
    injection h with _ h
    injection h with h _
    injection h with h _
    exact absurd h (by decide)
  · intro h
    injection h with h
    exact absurd h (by decide)
  · intro h
    cases h
  · intro h
    injection h with h
    exact absurd h (by decide)

/-- The loop of `printStruct` over scalar fields, on an accepting writer. -/
theorem structLoop_scalars (pfx : String) : ∀ (m : List (String × Value)) (o buf : Sink),
    o.Accepting → (∀ kv ∈ m, kv.2.isScalar = true) →
    structLoop pfx m o buf =
      (o.append (m.map fun kv => fieldLine pfx kv.1 (scalarTypeName kv.2)), buf, none)
  | [], o, buf, _, _ => by simp [structLoop, Sink.append_nil]
  | (k, v) :: rest, o, buf, ho, hm => by
    have ih := structLoop_scalars pfx rest (o.append [fieldLine pfx k (scalarTypeName v)]) buf
      (Sink.append_accepting o _ ho) (fun kv hkv => hm kv (List.mem_cons_of_mem _ hkv))
    have hv := hm (k, v) (by simp)
    cases v with
    | num n =>
      rw [structLoop, structCase]
      simp only [Sink.write_accepting o _ ho]
      rw [scalarTypeName] at ih
      rw [ih, Sink.append_append]
      simp [scalarTypeName]
    | str x =>
      rw [structLoop, structCase]
      simp only [Sink.write_accepting o _ ho]
      rw [scalarTypeName] at ih
      rw [ih, Sink.append_append]
      simp [scalarTypeName]
    | null => simp [Value.isScalar] at hv
    | bool b => simp [Value.isScalar] at hv
    | arr s => simp [Value.isScalar] at hv
    | obj m => simp [Value.isScalar] at hv

/-- The writes of `printStruct` on a mapping of scalar fields and an accepting
writer. -/
theorem printStruct_scalars (o : Sink) (pfx name : String) (m : List (String × Value))
    (ho : o.Accepting) (hm : ∀ kv ∈ m, kv.2.isScalar = true) :
    printStruct o pfx name m =
      (o.append (openLine name ::
        ((m.map fun kv => fieldLine pfx kv.1 (scalarTypeName kv.2)) ++ [closeLine name])),
        .ok (title name)) := by
  rw [printStruct, Sink.write_accepting o _ ho]
  simp only []
  rw [structLoop_scalars pfx m _ Sink.buffer (Sink.append_accepting o _ ho) hm]
  simp only []
  rw [finishStruct_accepting _ _ _
    (Sink.append_accepting _ _ (Sink.append_accepting o _ ho))]
  simp [Sink.append_append, Sink.buffer]

/-- C7 (amended): for every mapping whose values are all numeric or string
scalars, every order `vis` in which the `range` over the map visits its entries
and every writer that accepts its writes, `printStruct` succeeds and writes the
opening line `type <Name> struct {`, then exactly one field line per entry, each
with type `float64` for a number and `string` for a string, then the closing
line, and nothing else.  The field lines come in the order of the visit: they
are a rearrangement of the lines of the entries in the key order of the
document, and need not be in that order. -/
theorem C7_scalar_fields_in_visiting_order (o : Sink) (pfx name : String)
    (doc vis : List (String × Value)) (hv : RangeOrder doc vis) (ho : o.Accepting)
    (hm : ∀ kv ∈ doc, kv.2.isScalar = true) :
    (printStruct o pfx name vis).2 = .ok (title name) ∧
    (printStruct o pfx name vis).1.history =
      o.history ++ ("type " ++ title name ++ " struct \x7b\n") ::
        ((vis.map fun kv => "\t" ++ pfx ++ title kv.1 ++ " " ++ scalarTypeName kv.2 ++
            " `json:" ++ quote kv.1 ++ "`\n") ++
          ["\x7d `json:" ++ quote name ++ "`\n\n"]) ∧
    (printStruct o pfx name vis).1.data =
      o.data ++ (("type " ++ title name ++ " struct \x7b\n") ++
        String.join (vis.map fun kv => "\t" ++ pfx ++ title kv.1 ++ " " ++
          scalarTypeName kv.2 ++ " `json:" ++ quote kv.1 ++ "`\n") ++
        ("\x7d `json:" ++ quote name ++ "`\n\n")) ∧
    (vis.map fun kv => "\t" ++ pfx ++ title kv.1 ++ " " ++ scalarTypeName kv.2 ++
        " `json:" ++ quote kv.1 ++ "`\n").Perm
      (doc.map fun kv => "\t" ++ pfx ++ title kv.1 ++ " " ++ scalarTypeName kv.2 ++
        " `json:" ++ quote kv.1 ++ "`\n") ∧
    (vis.map fun kv => "\t" ++ pfx ++ title kv.1 ++ " " ++ scalarTypeName kv.2 ++
        " `json:" ++ quote kv.1 ++ "`\n").length = doc.length := by
  have hvis : ∀ kv ∈ vis, kv.2.isScalar = true := fun kv hkv => hm kv (hv.mem_iff.1 hkv)
  have h := printStruct_scalars o pfx name vis ho hvis
  rw [h]
  refine ⟨rfl, rfl, ?_, hv.map _, ?_⟩
  · simp only [Sink.append, join_cons, join_append, join_nil, String.append_assoc]
    simp [openLine, fieldLine, closeLine, String.append_assoc]
  · rw [List.length_map]
    exact hv.length_eq

/-- C7, witness: the document `name: "Ann", age: 30` visited in the order `age`,
`name`, on a fresh buffer. -/
theorem C7_scalar_fields_in_visiting_order_witness :
    RangeOrder [("name", Value.str "Ann"), ("age", Value.num .float64)]
      [("age", Value.num .float64), ("name", Value.str "Ann")] ∧
    Sink.buffer.Accepting ∧
    (∀ kv ∈ [("name", Value.str "Ann"), ("age", Value.num .float64)], kv.2.isScalar = true) ∧
    (printStruct Sink.buffer "" "person"
        [("age", Value.num .float64), ("name", Value.str "Ann")]).1.history =
      ["type Person struct \x7b\n", "\tAge float64 `json:\"age\"`\n",
        "\tName string `json:\"name\"`\n", "\x7d `json:\"person\"`\n\n"] :=
  ⟨List.Perm.swap _ _ _, Sink.buffer_accepting, by simp [Value.isScalar],
    (C7_scalar_fields_in_visiting_order Sink.buffer "" "person"
      [("name", Value.str "Ann"), ("age", Value.num .float64)]
      [("age", Value.num .float64), ("name", Value.str "Ann")] (List.Perm.swap _ _ _)
      Sink.buffer_accepting (by simp [Value.isScalar])).2.1⟩

/-- C7, counterexample: for the document `name: "Ann", age: 30` the `range` over
the map may visit `age` before `name`; the field lines are then written in that
order, which is not the key order of the document.  And on a writer that rejects
the write of a field line `printStruct` does not succeed, although all values
are scalars. -/
theorem C7_counterexample :
    RangeOrder [("name", Value.str "Ann"), ("age", Value.num .float64)]
      [("age", Value.num .float64), ("name", Value.str "Ann")] ∧
    (printStruct Sink.buffer "" "person"
        [("age", Value.num .float64), ("name", Value.str "Ann")]).2 = .ok "Person" ∧
    (printStruct Sink.buffer "" "person"
        [("age", Value.num .float64), ("name", Value.str "Ann")]).1.history =
      ["type Person struct \x7b\n", "\tAge float64 `json:\"age\"`\n",
        "\tName string `json:\"name\"`\n", "\x7d `json:\"person\"`\n\n"] ∧
    (printStruct Sink.buffer "" "person"
        [("age", Value.num .float64), ("name", Value.str "Ann")]).1.history ≠
      ["type Person struct \x7b\n", "\tName string `json:\"name\"`\n",
        "\tAge float64 `json:\"age\"`\n", "\x7d `json:\"person\"`\n\n"] ∧
    (printStruct (Sink.rejecting 1) "" "person"
        [("name", Value.str "Ann"), ("age", Value.num .float64)]).2 =
      .error (.write "rejected") := by
  refine ⟨List.Perm.swap _ _ _, rfl, rfl, ?_, rfl⟩
  decide

/-- The result of `printStruct` on an accepting writer, from the result of its
loop. -/
theorem printStruct_result (o : Sink) (pfx name : String) (m : List (String × Value))
    (ho : o.Accepting) :
    (printStruct o pfx name m).2 =
      match (structLoop pfx m (o.append [openLine name]) Sink.buffer).2.2 with
      | some e => .error e
      | none => .ok (title name) := by
  have hacc := Sink.append_accepting o [openLine name] ho
  obtain ⟨ws, wb, r, h⟩ := structLoop_frame pfx m
  rw [printStruct, Sink.write_accepting o _ ho]
  simp only []
  rw [h _ _ hacc Sink.buffer_accepting]
  cases r with
  | some e => rfl
  | none =>
    simp only []
    rw [finishStruct_accepting _ _ _ (Sink.append_accepting _ _ hacc)]

mutual

theorem structLoop_supported (pfx : String) : ∀ (m : List (String × Value)) (o buf : Sink),
    o.Accepting → buf.Accepting →
    ((structLoop pfx m o buf).2.2 = none ↔ supportedFields m = true)
  | [], o, buf, _, _ => by simp [structLoop, supportedFields]
  | (k, v) :: rest, o, buf, ho, hb => by
    have h1 := structCase_supported pfx k v Sink.buffer Sink.buffer_accepting
    have h2 := structLoop_supported pfx rest (o.append [fieldLine pfx k (fieldTypeName pfx k v)])
      (buf.append (structCase pfx k v Sink.buffer).1.history)
      (Sink.append_accepting o _ ho) (Sink.append_accepting buf _ hb)
    rw [structLoop_cons pfx k v rest o buf hb, supportedFields]
    cases hc : (structCase pfx k v Sink.buffer).2 with
    | error e =>
      have hv : v.supported = false := by
        cases hs : v.supported with
        | false => rfl
        | true =>
          obtain ⟨t, ht⟩ := h1.2 hs
          rw [hc] at ht
          cases ht
      simp [hv]
    | ok t =>
      have hv : v.supported = true := h1.1 ⟨t, hc⟩
      have hn : fieldTypeName pfx k v = t := by simp [fieldTypeName, hc]
      rw [hn] at h2
      simp only [Sink.write_accepting o _ ho, hv, Bool.true_and]
      exact h2

theorem structCase_supported (pfx k : String) : ∀ (v : Value) (buf : Sink), buf.Accepting →
    ((∃ t, (structCase pfx k v buf).2 = .ok t) ↔ v.supported = true)
  | .num _, buf, _ => by simp [structCase, Value.supported]
  | .str _, buf, _ => by simp [structCase, Value.supported]
  | .null, buf, _ => by simp [structCase, Value.supported]
  | .bool _, buf, _ => by simp [structCase, Value.supported]
  | .arr s, buf, _ => by
    have h := sliceLoop_supported (pfx ++ "\t") k s "" "" Sink.buffer Sink.buffer_accepting
    rw [structCase_arr, Value.supported, ← h]
    have hr := printSlice_result buf (pfx ++ "\t") k s
    rcases hp : printSlice buf (pfx ++ "\t") k s with ⟨b, r⟩
    rw [hp] at hr
    simp only [] at hr
    cases hl : (sliceLoop (pfx ++ "\t") k s "" "" Sink.buffer).2 with
    | error e =>
      rw [hl] at hr
      simp only [] at hr
      subst hr
      simp
    | ok tl =>
      rw [hl] at hr
      simp only [] at hr
      subst hr
      simp
  | .obj m, buf, hb => by
    have h := structLoop_supported (pfx ++ "\t") m (buf.append [openLine k]) Sink.buffer
      (Sink.append_accepting buf _ hb) Sink.buffer_accepting
    rw [structCase_obj, Value.supported, ← h, printStruct_result buf _ k m hb]
    cases (structLoop (pfx ++ "\t") m (buf.append [openLine k]) Sink.buffer).2.2 <;> simp

theorem sliceLoop_supported (pfx name : String) : ∀ (s : List Value) (t last : String)
    (buf : Sink), buf.Accepting →
    ((∃ tl, (sliceLoop pfx name s t last buf).2 = .ok tl) ↔ supportedElems s = true)
  | [], t, last, buf, _ => by simp [sliceLoop, supportedElems]
  | v :: rest, t, last, buf, hb => by
    have h1 := sliceCase_supported pfx name v Sink.buffer Sink.buffer_accepting
    rw [sliceLoop_cons pfx name v rest t last buf hb, supportedElems, elemType]
    cases hc : (sliceCase pfx name v Sink.buffer).2 with
    | error e =>
      have hv : v.supported = false := by
        cases hs : v.supported with
        | false => rfl
        | true =>
          obtain ⟨t1, ht⟩ := h1.2 hs
          rw [hc] at ht
          cases ht
      simp [hv]
    | ok t1 =>
      have hv : v.supported = true := h1.1 ⟨t1, hc⟩
      have h2 := sliceLoop_supported pfx name rest t1 t
        (buf.append (sliceCase pfx name v Sink.buffer).1.history)
        (Sink.append_accepting buf _ hb)
      simp only [hv, Bool.true_and]
      exact h2

theorem sliceCase_supported (pfx name : String) : ∀ (v : Value) (buf : Sink), buf.Accepting →
    ((∃ t, (sliceCase pfx name v buf).2 = .ok t) ↔ v.supported = true)
  | .num _, buf, _ => by simp [sliceCase, Value.supported]
  | .str _, buf, _ => by simp [sliceCase, Value.supported]
  | .null, buf, _ => by simp [sliceCase, Value.supported]
  | .bool _, buf, _ => by simp [sliceCase, Value.supported]
  | .arr s, buf, _ => by
    have h := sliceLoop_supported (pfx ++ "\t") name s "" "" Sink.buffer Sink.buffer_accepting
    rw [sliceCase_arr, Value.supported, ← h]
    have hr := printSlice_result buf (pfx ++ "\t") name s
    rcases hp : printSlice buf (pfx ++ "\t") name s with ⟨b, r⟩
    rw [hp] at hr
    simp only [] at hr
    cases hl : (sliceLoop (pfx ++ "\t") name s "" "" Sink.buffer).2 with
    | error e =>
      rw [hl] at hr
      simp only [] at hr
      subst hr
      simp
    | ok tl =>
      rw [hl] at hr
      simp only [] at hr
      subst hr
      simp
  | .obj m, buf, hb => by
    have h := structLoop_supported (pfx ++ "\t") m (buf.append [openLine name]) Sink.buffer
      (Sink.append_accepting buf _ hb) Sink.buffer_accepting
    rw [sliceCase_obj, Value.supported, ← h, printStruct_result buf _ name m hb]
    cases (structLoop (pfx ++ "\t") m (buf.append [openLine name]) Sink.buffer).2.2 <;> simp

end

/-- C8: with a writer that never rejects a write, `printStruct` on a mapping
fails if and only if some value anywhere in the tree (a field value or a
sequence element, at any depth) is of a kind other than number, string, mapping
or sequence; on a tree built only from numbers, strings, mappings and sequences
it returns the name of the record. -/
theorem C8_fails_iff_unsupported (o : Sink) (pfx name : String) (m : List (String × Value))
    (ho : o.Accepting) :
    ((∃ e, (printStruct o pfx name m).2 = .error e) ↔ supportedFields m = false) ∧
    (supportedFields m = true → (printStruct o pfx name m).2 = .ok (title name)) := by
  have h := structLoop_supported pfx m (o.append [openLine name]) Sink.buffer
    (Sink.append_accepting o _ ho) Sink.buffer_accepting
  rw [printStruct_result o pfx name m ho]
  cases hl : (structLoop pfx m (o.append [openLine name]) Sink.buffer).2.2 with
  | some e =>
    rw [hl] at h
    have hs : supportedFields m = false := by
      cases hs : supportedFields m with
      | false => rfl
      | true => exact absurd (h.2 hs) (by simp)
    simp [hs]
  | none =>
    rw [hl] at h
    simp [h.1 rfl]

/-- C8, witness: on a fresh buffer the mapping `a: [1, (b: true)]` fails and
the mapping `a: [1, (b: "x")]` does not. -/
theorem C8_fails_iff_unsupported_witness :
    Sink.buffer.Accepting ∧
    supportedFields [("a", .arr [.num .float64, .obj [("b", .bool true)]])] = false ∧
    (∃ e, (printStruct Sink.buffer "" "TopLevelElement"
      [("a", .arr [.num .float64, .obj [("b", .bool true)]])]).2 = .error e) ∧
    supportedFields [("a", .arr [.num .float64, .obj [("b", .str "x")]])] = true ∧
    (printStruct Sink.buffer "" "TopLevelElement"
      [("a", .arr [.num .float64, .obj [("b", .str "x")]])]).2 = .ok (title "TopLevelElement") :=
  ⟨Sink.buffer_accepting, rfl,
    (C8_fails_iff_unsupported Sink.buffer "" "TopLevelElement"
      [("a", .arr [.num .float64, .obj [("b", .bool true)]])] Sink.buffer_accepting).1.2 rfl,
    rfl,
    (C8_fails_iff_unsupported Sink.buffer "" "TopLevelElement"
      [("a", .arr [.num .float64, .obj [("b", .str "x")]])] Sink.buffer_accepting).2 rfl⟩

/-- A loop of `printStruct` that returns an error built by `fmt.Errorf` stopped
at an entry whose switch returned that error, after it had written the field
lines of the entries before it, all of them accepted. -/
theorem structLoop_errorf (pfx msg : String) : ∀ (m : List (String × Value)) (o buf : Sink),
    buf.Accepting → (structLoop pfx m o buf).2.2 = some (.errorf msg) →
    ∃ (pre : List (String × Value)) (k : String) (v : Value) (post : List (String × Value)),
      m = pre ++ (k, v) :: post ∧
      (∀ kv ∈ pre, ∃ t, (structCase pfx kv.1 kv.2 Sink.buffer).2 = .ok t) ∧
      (structCase pfx k v Sink.buffer).2 = .error (.errorf msg) ∧
      (structLoop pfx m o buf).1.history = o.history ++ fieldLines pfx pre ∧
      (structLoop pfx m o buf).1.data = o.data ++ String.join (fieldLines pfx pre)
  | [], o, buf, _, h => by simp [structLoop] at h
  | (k, v) :: rest, o, buf, hb, h => by
    rw [structLoop_cons pfx k v rest o buf hb] at h ⊢
    cases hc : (structCase pfx k v Sink.buffer).2 with
    | error e =>
      simp only [hc] at h ⊢
      simp only [Option.some.injEq] at h
      subst h
      exact ⟨[], k, v, rest, rfl, by simp, hc, by simp [fieldLines],
        by simp [fieldLines, join_nil]⟩
    | ok t =>
      simp only [hc] at h ⊢
      cases hw : (o.write (fieldLine pfx k t)).2 with
      | some e =>
        have hw1 : o.write (fieldLine pfx k t) = ((o.write (fieldLine pfx k t)).1, some e) := by
          rw [← hw]
        rw [hw1] at h
        simp at h
      | none =>
        have hw1 : o.write (fieldLine pfx k t) = ((o.write (fieldLine pfx k t)).1, none) := by
          rw [← hw]
        rw [hw1] at h ⊢
        simp only [] at h ⊢
        obtain ⟨pre, k1, v1, post, hm, hpre, hv1, hh, hd⟩ :=
          structLoop_errorf pfx msg rest _ _ (Sink.append_accepting buf _ hb) h
        have hn : fieldTypeName pfx k v = t := by simp [fieldTypeName, hc]
        refine ⟨(k, v) :: pre, k1, v1, post, by simp [hm], ?_, hv1, ?_, ?_⟩
        · intro kv hkv
          rcases List.mem_cons.1 hkv with rfl | hkv
          · exact ⟨t, hc⟩
          · exact hpre kv hkv
        · rw [hh, Sink.write_history]
          simp [fieldLines, hn]
        · rw [hd, Sink.write_data_of_ok o _ hw]
          simp [fieldLines, hn, join_cons, String.append_assoc]

/-- The end of `printStruct` returns no error built by `fmt.Errorf`. -/
theorem finishStruct_not_errorf (name : String) (o buf : Sink) (msg : String) :
    (finishStruct name o buf).2 ≠ .error (.errorf msg) := by
  unfold finishStruct
  simp only []
  generalize ioCopy (o.write (closeLine name)).1 buf = x
  rcases x with ⟨o2, _ | e2⟩ <;> simp

/-- C9 (amended): whenever `printStruct` fails because the tree contains an
unsupported value kind, the writes it has issued are the opening line of the
record and the field lines of the entries before the failing one, and nothing
else (no closing line, no nested declaration); a writer that accepts its writes
holds what it held before followed by that text. -/
theorem C9_output_on_unsupported_kind (o : Sink) (pfx name msg : String)
    (m : List (String × Value)) (h : (printStruct o pfx name m).2 = .error (.errorf msg)) :
    ∃ (pre : List (String × Value)) (k : String) (v : Value) (post : List (String × Value)),
      m = pre ++ (k, v) :: post ∧
      (∀ kv ∈ pre, ∃ t, (structCase pfx kv.1 kv.2 Sink.buffer).2 = .ok t) ∧
      (structCase pfx k v Sink.buffer).2 = .error (.errorf msg) ∧
      (printStruct o pfx name m).1.history =
        o.history ++ openLine name :: fieldLines pfx pre ∧
      (o.Accepting →
        (printStruct o pfx name m).1.data =
          o.data ++ (openLine name ++ String.join (fieldLines pfx pre))) := by
  unfold printStruct at h ⊢
  have key := structLoop_errorf pfx msg m (o.write (openLine name)).1 Sink.buffer
    Sink.buffer_accepting
  rcases hL : structLoop pfx m (o.write (openLine name)).1 Sink.buffer with ⟨o1, buf1, r⟩
  rw [hL] at key h
  cases r with
  | none => exact absurd h (finishStruct_not_errorf name o1 buf1 msg)
  | some e =>
    simp only [Except.error.injEq] at h
    subst h
    obtain ⟨pre, k, v, post, hm, hpre, hv, hh, hd⟩ := key rfl
    simp only [] at hh hd ⊢
    refine ⟨pre, k, v, post, hm, hpre, hv, ?_, ?_⟩
    · rw [hh, Sink.write_history]
      simp
    · intro ho
      rw [hd, Sink.write_accepting o _ ho]
      simp [Sink.append, join_singleton, String.append_assoc]

/-- C9, witness: the mapping `n: 1, b: null` on a fresh buffer fails on the
value of `b`; the buffer then holds the opening line and the field line of `n`. -/
theorem C9_output_on_unsupported_kind_witness :
    (printStruct Sink.buffer "" "TopLevelElement"
      [("n", .num .float64), ("b", .null)]).2 = .error (.errorf "Unrecognized type: <nil>") ∧
    ∃ (pre : List (String × Value)) (k : String) (v : Value) (post : List (String × Value)),
      [("n", Value.num .float64), ("b", Value.null)] = pre ++ (k, v) :: post ∧
      (∀ kv ∈ pre, ∃ t, (structCase "" kv.1 kv.2 Sink.buffer).2 = .ok t) ∧
      (structCase "" k v Sink.buffer).2 = .error (.errorf "Unrecognized type: <nil>") ∧
      (printStruct Sink.buffer "" "TopLevelElement"
          [("n", .num .float64), ("b", .null)]).1.history =
        Sink.buffer.history ++ openLine "TopLevelElement" :: fieldLines "" pre ∧
      (Sink.buffer.Accepting →
        (printStruct Sink.buffer "" "TopLevelElement"
            [("n", .num .float64), ("b", .null)]).1.data =
          Sink.buffer.data ++ (openLine "TopLevelElement" ++ String.join (fieldLines "" pre))) :=
  ⟨rfl, C9_output_on_unsupported_kind Sink.buffer "" "TopLevelElement"
    "Unrecognized type: <nil>" [("n", .num .float64), ("b", .null)] rfl⟩

/-- C9, counterexample: `printStruct` on the mapping `n: 1, b: null` and a fresh
buffer fails on the unsupported value of `b`, and the buffer, empty before the
call, then holds the opening line and the field line of `n`. -/
theorem C9_counterexample :
    (printStruct Sink.buffer "" "TopLevelElement"
      [("n", .num .float64), ("b", .null)]).2 = .error (unrecognized .null) ∧
    (printStruct Sink.buffer "" "TopLevelElement"
      [("n", .num .float64), ("b", .null)]).1.data =
        openLine "TopLevelElement" ++ fieldLine "" "n" "float64" ∧
    (printStruct Sink.buffer "" "TopLevelElement"
      [("n", .num .float64), ("b", .null)]).1.data ≠ Sink.buffer.data := by
  refine ⟨rfl, rfl, ?_⟩
  decide

/-- C10 (failing input): on a writer that rejects every write, `printStruct` on
the empty mapping issues the write of the opening line, which is rejected, then
the write of the closing line, which is rejected, and returns success.  On the
mapping `a: 1` with a writer that rejects only its first write (the opening
line) it goes on to write the field line and the closing line and returns
success, and likewise when only the write of the closing line is rejected. -/
theorem C10_rejected_write_ignored :
    (Sink.closed.write (openLine "TopLevelElement")).2 = some "closed" ∧
    (printStruct Sink.closed "" "TopLevelElement" []).2 = .ok "TopLevelElement" ∧
    (printStruct Sink.closed "" "TopLevelElement" []).1.history =
      [openLine "TopLevelElement", closeLine "TopLevelElement"] ∧
    ((Sink.rejecting 0).write (openLine "TopLevelElement")).2 = some "rejected" ∧
    (printStruct (Sink.rejecting 0) "" "TopLevelElement" [("a", .num .float64)]).2 =
      .ok "TopLevelElement" ∧
    (printStruct (Sink.rejecting 0) "" "TopLevelElement" [("a", .num .float64)]).1.history =
      [openLine "TopLevelElement", fieldLine "" "a" "float64", closeLine "TopLevelElement"] ∧
    (printStruct (Sink.rejecting 0) "" "TopLevelElement" [("a", .num .float64)]).1.data =
      fieldLine "" "a" "float64" ++ closeLine "TopLevelElement" ∧
    (printStruct (Sink.rejecting 2) "" "TopLevelElement" [("a", .num .float64)]).2 =
      .ok "TopLevelElement" ∧
    (printStruct (Sink.rejecting 2) "" "TopLevelElement" [("a", .num .float64)]).1.data =
      openLine "TopLevelElement" ++ fieldLine "" "a" "float64" ∧
    (printStruct (Sink.rejecting 1) "" "TopLevelElement" [("a", .num .float64)]).2 =
      .error (.write "rejected") := by
  refine ⟨rfl, rfl, rfl, rfl, rfl, rfl, rfl, rfl, rfl, rfl⟩

/-- The writer given to `printSlice` comes back as it was. -/
theorem printSlice_writer (o : Sink) (pfx name : String) (s : List Value) :
    (printSlice o pfx name s).1 = o := by
  unfold printSlice
  rcases sliceLoop pfx name s "" "" Sink.buffer with ⟨b, r⟩
  cases r <;> rfl

/-- The result of `printSlice` does not depend on the writer it is given. -/
theorem printSlice_result_writer (o o2 : Sink) (pfx name : String) (s : List Value) :
    (printSlice o2 pfx name s).2 = (printSlice o pfx name s).2 := by
  rw [printSlice_result, printSlice_result]

/-- C14: `printSlice` has no side effects.  For every writer, prefix, name and
sequence, whether the call succeeds or fails and whatever the elements are, the
writer passed to `printSlice` is left exactly as it was (content, history of
writes and behaviour), and the returned type name or error is the same for
every writer. -/
theorem C14_printSlice_no_side_effect (o : Sink) (pfx name : String) (s : List Value) :
    (printSlice o pfx name s).1 = o ∧
    (printSlice o pfx name s).1.data = o.data ∧
    (printSlice o pfx name s).1.history = o.history ∧
    ∀ o2 : Sink, (printSlice o2 pfx name s).2 = (printSlice o pfx name s).2 := by
  have h := printSlice_writer o pfx name s
  exact ⟨h, by rw [h], by rw [h], fun o2 => printSlice_result_writer o o2 pfx name s⟩

/-- C15: only the final transition is checked.  For every name, every pair of
elements `a`, `b` and every list `p` of elements before them, if all elements of
`p ++ [a, b]` classify successfully then `printSlice` returns on `p ++ [a, b]`
the same type name as on `[a, b]`. -/
theorem C15_only_final_transition (o : Sink) (pfx name : String) (p : List Value)
    (a b : Value) (h : ∀ v ∈ p ++ [a, b], ∃ t, elemType pfx name v = .ok t) :
    (printSlice o pfx name (p ++ [a, b])).2 = (printSlice o pfx name [a, b]).2 := by
  obtain ⟨ta, ha⟩ := h a (by simp)
  obtain ⟨tb, hb⟩ := h b (by simp)
  have h1 := sliceLoop_last_two pfx name a b ta tb ha hb p "" "" Sink.buffer
    Sink.buffer_accepting (fun v hv => h v (List.mem_append_left _ hv))
  have h2 := sliceLoop_last_two pfx name a b ta tb ha hb [] "" "" Sink.buffer
    Sink.buffer_accepting (fun v hv => absurd hv (List.not_mem_nil v))
  rw [printSlice_result, printSlice_result, h1]
  rw [List.nil_append] at h2
  rw [h2]

/-- C15, witness: the elements `[1, (k: 1), "x", "y"]`, with `p = [1, (k: 1)]`,
`a = "x"` and `b = "y"`. -/
theorem C15_only_final_transition_witness :
    (∀ v ∈ [Value.num .float64, .obj [("k", .num .float64)]] ++ [.str "x", .str "y"],
      ∃ t, elemType "" "xs" v = .ok t) ∧
    (printSlice Sink.buffer "" "xs"
      ([Value.num .float64, .obj [("k", .num .float64)]] ++ [.str "x", .str "y"])).2 =
      (printSlice Sink.buffer "" "xs" [.str "x", .str "y"]).2 :=
  ⟨fun v hv => by
      simp only [List.cons_append, List.nil_append, List.mem_cons, List.mem_singleton,
        List.not_mem_nil, or_false] at hv
      rcases hv with rfl | rfl | rfl | rfl
      · exact ⟨"float64", rfl⟩
      · exact ⟨"Xs", rfl⟩
      · exact ⟨"string", rfl⟩
      · exact ⟨"string", rfl⟩,
    C15_only_final_transition Sink.buffer "" "xs"
      [Value.num .float64, .obj [("k", .num .float64)]] (.str "x") (.str "y")
      (fun v hv => by
        simp only [List.cons_append, List.nil_append, List.mem_cons, List.mem_singleton,
          List.not_mem_nil, or_false] at hv
        rcases hv with rfl | rfl | rfl | rfl
        · exact ⟨"float64", rfl⟩
        · exact ⟨"Xs", rfl⟩
        · exact ⟨"string", rfl⟩
        · exact ⟨"string", rfl⟩)⟩

/-- The loop of `printStruct` over entries whose switch returns a type name
without touching the buffer, on an accepting writer. -/
theorem structLoop_plain (pfx : String) : ∀ (m : List (String × Value)) (o buf : Sink),
    o.Accepting →
    (∀ kv ∈ m, ∃ ty, ∀ b : Sink, structCase pfx kv.1 kv.2 b = (b, .ok ty)) →
    structLoop pfx m o buf = (o.append (fieldLines pfx m), buf, none)
  | [], o, buf, _, _ => by simp [structLoop, fieldLines, Sink.append_nil]
  | (k, v) :: rest, o, buf, ho, hm => by
    obtain ⟨ty, hty⟩ := hm (k, v) (by simp)
    have hn : fieldTypeName pfx k v = ty := by simp [fieldTypeName, hty Sink.buffer]
    have ih := structLoop_plain pfx rest (o.append [fieldLine pfx k ty]) buf
      (Sink.append_accepting o _ ho) (fun kv hkv => hm kv (List.mem_cons_of_mem _ hkv))
    rw [structLoop, hty buf]
    simp only [Sink.write_accepting o _ ho]
    rw [ih, Sink.append_append]
    simp [fieldLines, hn]

/-- The writes of `printStruct` on a mapping without nested mapping, on an
accepting writer. -/
theorem printStruct_plain (o : Sink) (pfx name : String) (m : List (String × Value))
    (ho : o.Accepting)
    (hm : ∀ kv ∈ m, ∃ ty, ∀ b : Sink, structCase pfx kv.1 kv.2 b = (b, .ok ty)) :
    printStruct o pfx name m =
      (o.append (openLine name :: (fieldLines pfx m ++ [closeLine name])),
        .ok (title name)) := by
  rw [printStruct, Sink.write_accepting o _ ho]
  simp only []
  rw [structLoop_plain pfx m _ Sink.buffer (Sink.append_accepting o _ ho) hm]
  simp only []
  rw [finishStruct_accepting _ _ _
    (Sink.append_accepting _ _ (Sink.append_accepting o _ ho))]
  simp [Sink.append_append, Sink.buffer]

/-- C12 (amended): rendering the root mapping `name: "Ann", age: 30,
tags: ["x", "y"]` under the root name `TopLevelElement`, on a writer that accepts
its writes, succeeds and writes exactly one declaration: the opening line
`type TopLevelElement struct {`, the three field lines `Name string`,
`Age float64` and `Tags []string`, each once and each tagged with its original
lowercase key, and the closing line, and nothing else.  The three field lines
come in the order in which the `range` over the map visits the keys, which may
be any of the six orders; they come as name, age, tags when the keys are visited
in that order. -/
theorem C12_ann_document_any_order (o : Sink) (vis : List (String × Value))
    (hv : RangeOrder annDoc vis) (ho : o.Accepting) :
    printStruct o "" "TopLevelElement" vis =
      (o.append ("type TopLevelElement struct \x7b\n" ::
        ((vis.map fun kv =>
            if kv.1 = "name" then "\tName string `json:\"name\"`\n"
            else if kv.1 = "age" then "\tAge float64 `json:\"age\"`\n"
            else "\tTags []string `json:\"tags\"`\n") ++
          ["\x7d `json:\"TopLevelElement\"`\n\n"])), .ok "TopLevelElement") ∧
    (vis.map fun kv =>
        if kv.1 = "name" then "\tName string `json:\"name\"`\n"
        else if kv.1 = "age" then "\tAge float64 `json:\"age\"`\n"
        else "\tTags []string `json:\"tags\"`\n").Perm
      ["\tName string `json:\"name\"`\n", "\tAge float64 `json:\"age\"`\n",
        "\tTags []string `json:\"tags\"`\n"] ∧
    (vis = annDoc →
      (vis.map fun kv =>
          if kv.1 = "name" then "\tName string `json:\"name\"`\n"
          else if kv.1 = "age" then "\tAge float64 `json:\"age\"`\n"
          else "\tTags []string `json:\"tags\"`\n") =
        ["\tName string `json:\"name\"`\n", "\tAge float64 `json:\"age\"`\n",
          "\tTags []string `json:\"tags\"`\n"]) := by
  have hplain : ∀ kv ∈ vis, ∃ ty, ∀ b : Sink, structCase "" kv.1 kv.2 b = (b, .ok ty) := by
    intro kv hkv
    have hdoc := hv.mem_iff.1 hkv
    simp only [annDoc, List.mem_cons, List.mem_singleton, List.not_mem_nil, or_false] at hdoc
    rcases hdoc with rfl | rfl | rfl
    · exact ⟨"string", fun b => rfl⟩
    · exact ⟨"float64", fun b => rfl⟩
    · exact ⟨"[]string", fun b => rfl⟩
  have hlines : fieldLines "" vis =
      vis.map fun kv =>
        if kv.1 = "name" then "\tName string `json:\"name\"`\n"
        else if kv.1 = "age" then "\tAge float64 `json:\"age\"`\n"
        else "\tTags []string `json:\"tags\"`\n" := by
    unfold fieldLines
    apply List.map_congr_left
    intro kv hkv
    have hdoc := hv.mem_iff.1 hkv
    simp only [annDoc, List.mem_cons, List.mem_singleton, List.not_mem_nil, or_false] at hdoc
    rcases hdoc with rfl | rfl | rfl <;> decide
  refine ⟨?_, ?_, ?_⟩
  · rw [printStruct_plain o "" "TopLevelElement" vis ho hplain, hlines]
    rfl
  · exact hv.map _
  · intro h
    subst h
    decide

/-- The `range` over the map of `annDoc` may visit `tags`, then `name`, then
`age`. -/
theorem annDoc_tags_first :
    RangeOrder annDoc
      [("tags", .arr [.str "x", .str "y"]), ("name", .str "Ann"), ("age", .num .float64)] :=
  (List.Perm.swap ("name", Value.str "Ann") ("tags", Value.arr [.str "x", .str "y"])
    [("age", Value.num .float64)]).trans
    ((List.Perm.swap ("age", Value.num .float64) ("tags", Value.arr [.str "x", .str "y"])
      []).cons ("name", Value.str "Ann"))

/-- C12, witness: the document visited in the order `tags`, `name`, `age`, on a
fresh buffer. -/
theorem C12_ann_document_any_order_witness :
    RangeOrder annDoc
      [("tags", .arr [.str "x", .str "y"]), ("name", .str "Ann"), ("age", .num .float64)] ∧
    Sink.buffer.Accepting ∧
    (printStruct Sink.buffer "" "TopLevelElement"
        [("tags", .arr [.str "x", .str "y"]), ("name", .str "Ann"),
          ("age", .num .float64)]).1.history =
      ["type TopLevelElement struct \x7b\n", "\tTags []string `json:\"tags\"`\n",
        "\tName string `json:\"name\"`\n", "\tAge float64 `json:\"age\"`\n",
        "\x7d `json:\"TopLevelElement\"`\n\n"] ∧
    (annDoc = annDoc ∧
      (annDoc.map fun kv =>
          if kv.1 = "name" then "\tName string `json:\"name\"`\n"
          else if kv.1 = "age" then "\tAge float64 `json:\"age\"`\n"
          else "\tTags []string `json:\"tags\"`\n") =
        ["\tName string `json:\"name\"`\n", "\tAge float64 `json:\"age\"`\n",
          "\tTags []string `json:\"tags\"`\n"]) :=
  ⟨annDoc_tags_first, Sink.buffer_accepting,
    congrArg (fun x => x.1.history)
      (C12_ann_document_any_order Sink.buffer
        [("tags", .arr [.str "x", .str "y"]), ("name", .str "Ann"), ("age", .num .float64)]
        annDoc_tags_first
        Sink.buffer_accepting).1,
    rfl,
    (C12_ann_document_any_order Sink.buffer annDoc (List.Perm.refl _)
      Sink.buffer_accepting).2.2 rfl⟩

/-- C12, counterexample: for the root mapping `name: "Ann", age: 30,
tags: ["x", "y"]` the `range` over the map may visit `age` first; the field
lines are then written as `Age float64`, `Name string`, `Tags []string`, which
is not the order name, age, tags.  And on a writer that rejects the write of a
field line the call does not succeed. -/
theorem C12_counterexample :
    RangeOrder annDoc
      [("age", .num .float64), ("name", .str "Ann"), ("tags", .arr [.str "x", .str "y"])] ∧
    (printStruct Sink.buffer "" "TopLevelElement"
        [("age", .num .float64), ("name", .str "Ann"),
          ("tags", .arr [.str "x", .str "y"])]).2 = .ok "TopLevelElement" ∧
    (printStruct Sink.buffer "" "TopLevelElement"
        [("age", .num .float64), ("name", .str "Ann"),
          ("tags", .arr [.str "x", .str "y"])]).1.history =
      ["type TopLevelElement struct \x7b\n", "\tAge float64 `json:\"age\"`\n",
        "\tName string `json:\"name\"`\n", "\tTags []string `json:\"tags\"`\n",
        "\x7d `json:\"TopLevelElement\"`\n\n"] ∧
    (printStruct Sink.buffer "" "TopLevelElement"
        [("age", .num .float64), ("name", .str "Ann"),
          ("tags", .arr [.str "x", .str "y"])]).1.history ≠
      ["type TopLevelElement struct \x7b\n", "\tName string `json:\"name\"`\n",
        "\tAge float64 `json:\"age\"`\n", "\tTags []string `json:\"tags\"`\n",
        "\x7d `json:\"TopLevelElement\"`\n\n"] ∧
    (printStruct (Sink.rejecting 1) "" "TopLevelElement" annDoc).2 =
      .error (.write "rejected") := by
  refine ⟨List.Perm.swap _ _ _, rfl, rfl, ?_, rfl⟩
  decide

mutual

theorem firstUnsupported_kind : ∀ (v u : Value), v.firstUnsupported = some u →
    u = .null ∨ ∃ b, u = .bool b
  | .num _, u, h => by simp [Value.firstUnsupported] at h
  | .str _, u, h => by simp [Value.firstUnsupported] at h
  | .null, u, h => by
    simp only [Value.firstUnsupported, Option.some.injEq] at h
    exact Or.inl h.symm
  | .bool b, u, h => by
    simp only [Value.firstUnsupported, Option.some.injEq] at h
    exact Or.inr ⟨b, h.symm⟩
  | .arr s, u, h => by
    rw [Value.firstUnsupported] at h
    exact firstUnsupportedElems_kind s u h
  | .obj m, u, h => by
    rw [Value.firstUnsupported] at h
    exact firstUnsupportedFields_kind m u h

theorem firstUnsupportedFields_kind : ∀ (m : List (String × Value)) (u : Value),
    firstUnsupportedFields m = some u → u = .null ∨ ∃ b, u = .bool b
  | [], u, h => by simp [firstUnsupportedFields] at h
  | (_, v) :: rest, u, h => by
    rw [firstUnsupportedFields] at h
    cases hv : v.firstUnsupported with
    | some w =>
      rw [hv] at h
      simp only [Option.some.injEq] at h
      subst h
      exact firstUnsupported_kind v w hv
    | none =>
      rw [hv] at h
      exact firstUnsupportedFields_kind rest u h

theorem firstUnsupportedElems_kind : ∀ (s : List Value) (u : Value),
    firstUnsupportedElems s = some u → u = .null ∨ ∃ b, u = .bool b
  | [], u, h => by simp [firstUnsupportedElems] at h
  | v :: rest, u, h => by
    rw [firstUnsupportedElems] at h
    cases hv : v.firstUnsupported with
    | some w =>
      rw [hv] at h
      simp only [Option.some.injEq] at h
      subst h
      exact firstUnsupported_kind v w hv
    | none =>
      rw [hv] at h
      exact firstUnsupportedElems_kind rest u h

end

mutual

theorem structLoop_first (pfx : String) : ∀ (m : List (String × Value)) (o buf : Sink),
    o.Accepting → buf.Accepting →
    (structLoop pfx m o buf).2.2 = (firstUnsupportedFields m).map unrecognized
  | [], o, buf, _, _ => by simp [structLoop, firstUnsupportedFields]
  | (k, v) :: rest, o, buf, ho, hb => by
    have h1 := structCase_first pfx k v Sink.buffer Sink.buffer_accepting
    rw [structLoop_cons pfx k v rest o buf hb, firstUnsupportedFields]
    cases hv : v.firstUnsupported with
    | some u =>
      rw [h1.1 u hv]
      rfl
    | none =>
      obtain ⟨t, ht⟩ := h1.2 hv
      rw [ht]
      simp only [Sink.write_accepting o _ ho]
      exact structLoop_first pfx rest _ _ (Sink.append_accepting o _ ho)
        (Sink.append_accepting buf _ hb)

theorem structCase_first (pfx k : String) : ∀ (v : Value) (buf : Sink), buf.Accepting →
    (∀ u, v.firstUnsupported = some u → (structCase pfx k v buf).2 = .error (unrecognized u)) ∧
    (v.firstUnsupported = none → ∃ t, (structCase pfx k v buf).2 = .ok t)
  | .num _, buf, _ => by simp [structCase, Value.firstUnsupported]
  | .str _, buf, _ => by simp [structCase, Value.firstUnsupported]
  | .null, buf, _ => by
    refine ⟨fun u hu => ?_, fun h => by simp [Value.firstUnsupported] at h⟩
    simp only [Value.firstUnsupported, Option.some.injEq] at hu
    subst hu
    rfl
  | .bool b, buf, _ => by
    refine ⟨fun u hu => ?_, fun h => by simp [Value.firstUnsupported] at h⟩
    simp only [Value.firstUnsupported, Option.some.injEq] at hu
    subst hu
    rfl
  | .arr s, buf, _ => by
    have h := sliceLoop_first (pfx ++ "\t") k s "" "" Sink.buffer Sink.buffer_accepting
    have hr := printSlice_result buf (pfx ++ "\t") k s
    have hw := printSlice_writer buf (pfx ++ "\t") k s
    rw [structCase_arr, Value.firstUnsupported]
    rcases hp : printSlice buf (pfx ++ "\t") k s with ⟨b, r⟩
    rw [hp] at hr hw
    simp only [] at hr hw
    constructor
    · intro u hu
      rw [h.1 u hu] at hr
      simp only [] at hr
      subst hr
      rfl
    · intro hn
      obtain ⟨tl, htl⟩ := h.2 hn
      rw [htl] at hr
      simp only [] at hr
      subst hr
      exact ⟨_, rfl⟩
  | .obj m, buf, hb => by
    have h := structLoop_first (pfx ++ "\t") m (buf.append [openLine k]) Sink.buffer
      (Sink.append_accepting buf _ hb) Sink.buffer_accepting
    rw [structCase_obj, Value.firstUnsupported, printStruct_result buf _ k m hb, h]
    constructor
    · intro u hu
      rw [hu]
      rfl
    · intro hn
      rw [hn]
      exact ⟨_, rfl⟩

theorem sliceLoop_first (pfx name : String) : ∀ (s : List Value) (t last : String)
    (buf : Sink), buf.Accepting →
    (∀ u, firstUnsupportedElems s = some u →
      (sliceLoop pfx name s t last buf).2 = .error (unrecognized u)) ∧
    (firstUnsupportedElems s = none → ∃ tl, (sliceLoop pfx name s t last buf).2 = .ok tl)
  | [], t, last, buf, _ => by simp [sliceLoop, firstUnsupportedElems]
  | v :: rest, t, last, buf, hb => by
    have h1 := sliceCase_first pfx name v Sink.buffer Sink.buffer_accepting
    rw [sliceLoop_cons pfx name v rest t last buf hb, firstUnsupportedElems, elemType]
    cases hv : v.firstUnsupported with
    | some u =>
      rw [h1.1 u hv]
      simp
    | none =>
      obtain ⟨t1, ht⟩ := h1.2 hv
      rw [ht]
      exact sliceLoop_first pfx name rest t1 t _ (Sink.append_accepting buf _ hb)

theorem sliceCase_first (pfx name : String) : ∀ (v : Value) (buf : Sink), buf.Accepting →
    (∀ u, v.firstUnsupported = some u → (sliceCase pfx name v buf).2 = .error (unrecognized u)) ∧
    (v.firstUnsupported = none → ∃ t, (sliceCase pfx name v buf).2 = .ok t)
  | .num _, buf, _ => by simp [sliceCase, Value.firstUnsupported]
  | .str _, buf, _ => by simp [sliceCase, Value.firstUnsupported]
  | .null, buf, _ => by
    refine ⟨fun u hu => ?_, fun h => by simp [Value.firstUnsupported] at h⟩
    simp only [Value.firstUnsupported, Option.some.injEq] at hu
    subst hu
    rfl
  | .bool b, buf, _ => by
    refine ⟨fun u hu => ?_, fun h => by simp [Value.firstUnsupported] at h⟩
    simp only [Value.firstUnsupported, Option.some.injEq] at hu
    subst hu
    rfl
  | .arr s, buf, _ => by
    have h := sliceLoop_first (pfx ++ "\t") name s "" "" Sink.buffer Sink.buffer_accepting
    have hr := printSlice_result buf (pfx ++ "\t") name s
    rw [sliceCase_arr, Value.firstUnsupported]
    rcases hp : printSlice buf (pfx ++ "\t") name s with ⟨b, r⟩
    rw [hp] at hr
    simp only [] at hr
    constructor
    · intro u hu
      rw [h.1 u hu] at hr
      simp only [] at hr
      subst hr
      rfl
    · intro hn
      obtain ⟨tl, htl⟩ := h.2 hn
      rw [htl] at hr
      simp only [] at hr
      subst hr
      exact ⟨_, rfl⟩
  | .obj m, buf, hb => by
    have h := structLoop_first (pfx ++ "\t") m (buf.append [openLine name]) Sink.buffer
      (Sink.append_accepting buf _ hb) Sink.buffer_accepting
    rw [sliceCase_obj, Value.firstUnsupported, printStruct_result buf _ name m hb, h]
    constructor
    · intro u hu
      rw [hu]
      rfl
    · intro hn
      rw [hn]
      exact ⟨_, rfl⟩

end

/-- C16: under a writer that never rejects a write, when the tree of the mapping
holds an unsupported value (null or boolean), the error returned by the
outermost `printStruct` is exactly the error built at the point of
classification for the first such value in depth-first field and element order,
with message `Unrecognized type: ` followed by the name of its kind, not wrapped
or changed by any enclosing call; and when the tree holds none, the call returns
the record name. -/
theorem C16_first_unsupported_error (o : Sink) (pfx name : String) (m : List (String × Value))
    (ho : o.Accepting) :
    (printStruct o pfx name m).2 =
      (match firstUnsupportedFields m with
      | some u => .error (.errorf ("Unrecognized type: " ++ u.goType))
      | none => .ok (title name)) ∧
    (∀ u, firstUnsupportedFields m = some u →
      u.goType = "<nil>" ∨ u.goType = "bool") := by
  have h := structLoop_first pfx m (o.append [openLine name]) Sink.buffer
    (Sink.append_accepting o _ ho) Sink.buffer_accepting
  constructor
  · rw [printStruct_result o pfx name m ho, h]
    cases firstUnsupportedFields m <;> rfl
  · intro u hu
    rcases firstUnsupportedFields_kind m u hu with rfl | ⟨b, rfl⟩
    · exact Or.inl rfl
    · exact Or.inr rfl

/-- C16, witness: in `a: [1, (b: true)], c: null` the first unsupported value in
depth-first order is the boolean inside the sequence, and its error is the one
returned. -/
theorem C16_first_unsupported_error_witness :
    Sink.buffer.Accepting ∧
    firstUnsupportedFields
      [("a", .arr [.num .float64, .obj [("b", .bool true)]]), ("c", .null)] =
      some (.bool true) ∧
    (printStruct Sink.buffer "" "TopLevelElement"
      [("a", .arr [.num .float64, .obj [("b", .bool true)]]), ("c", .null)]).2 =
      .error (.errorf "Unrecognized type: bool") :=
  ⟨Sink.buffer_accepting, rfl,
    (C16_first_unsupported_error Sink.buffer "" "TopLevelElement"
      [("a", .arr [.num .float64, .obj [("b", .bool true)]]), ("c", .null)]
      Sink.buffer_accepting).1⟩

/-- The loop of `printSlice` over elements that all get the type name `c`, on an
accepting buffer. -/
theorem sliceLoop_same_type (pfx name c : String) :
    ∀ (v : Value) (rest : List Value) (t last : String) (buf : Sink), buf.Accepting →
      (∀ w ∈ v :: rest, elemType pfx name w = .ok c) →
      (sliceLoop pfx name (v :: rest) t last buf).2 = .ok (c, if rest.isEmpty then t else c)
  | v, [], t, last, buf, hb, h => by
    rw [sliceLoop_cons pfx name v [] t last buf hb, h v (by simp)]
    simp [sliceLoop]
  | v, w :: rest, t, last, buf, hb, h => by
    have ih := sliceLoop_same_type pfx name c w rest c t
      (buf.append (sliceCase pfx name v Sink.buffer).1.history)
      (Sink.append_accepting buf _ hb) (fun x hx => h x (List.mem_cons_of_mem _ hx))
    rw [sliceLoop_cons pfx name v (w :: rest) t last buf hb, h v (by simp)]
    simp only []
    rw [ih]
    split <;> simp

/-- The result of `printSlice` on a non-empty sequence whose elements all get
the type name `c`. -/
theorem printSlice_same_type (o : Sink) (pfx name c : String) (s : List Value) (hs : s ≠ [])
    (h : ∀ w ∈ s, elemType pfx name w = .ok c) :
    (printSlice o pfx name s).2 = .ok c := by
  cases s with
  | nil => exact absurd rfl hs
  | cons v rest =>
    rw [printSlice_result,
      sliceLoop_same_type pfx name c v rest "" "" Sink.buffer Sink.buffer_accepting h]
    cases rest with
    | nil => simp [finishSlice]
    | cons w rest => simp [finishSlice]

/-- The result of `printSlice` on a sequence of at least two elements that all
classify: the comparison of the type names of the last two. -/
theorem printSlice_last_two (o : Sink) (pfx name : String) (p : List Value) (a b : Value)
    (ta tb : String) (hp : ∀ v ∈ p, ∃ t, elemType pfx name v = .ok t)
    (ha : elemType pfx name a = .ok ta) (hb : elemType pfx name b = .ok tb) :
    (printSlice o pfx name (p ++ [a, b])).2 = .ok (finishSlice tb ta) := by
  rw [printSlice_result,
    sliceLoop_last_two pfx name a b ta tb ha hb p "" "" Sink.buffer Sink.buffer_accepting hp]

/-- The type name of an element that is itself a sequence. -/
theorem elemType_arr (pfx name T : String) (inner : List Value)
    (h : (printSlice Sink.buffer (pfx ++ "\t") name inner).2 = .ok T) :
    elemType pfx name (.arr inner) = .ok ("[]" ++ T) := by
  rw [elemType, sliceCase_arr]
  rcases hp : printSlice Sink.buffer (pfx ++ "\t") name inner with ⟨b, r⟩
  rw [hp] at h
  simp only [] at h
  subst h
  rfl

/-- The type name of a field that holds a sequence. -/
theorem structCase_arr_type (pfx k T : String) (s : List Value) (buf : Sink)
    (h : (printSlice Sink.buffer (pfx ++ "\t") k s).2 = .ok T) :
    (structCase pfx k (.arr s) buf).2 = .ok ("[]" ++ T) := by
  rw [structCase_arr]
  have h2 := printSlice_result_writer Sink.buffer buf (pfx ++ "\t") k s
  rw [h] at h2
  rcases hp : printSlice buf (pfx ++ "\t") k s with ⟨b, r⟩
  rw [hp] at h2
  simp only [] at h2
  subst h2
  rfl

theorem slice_type_ne (a b : String) (h : a ≠ b) : "[]" ++ a ≠ "[]" ++ b := by
  intro hab
  apply h
  have := congrArg String.data hab
  simp only [String.data_append, List.append_cancel_left_eq] at this
  exact String.ext this

theorem slice_type_ne_empty (a : String) : "[]" ++ a ≠ "" := by
  intro h
  have := congrArg String.length h
  have h2 : "[]".length = 2 := by decide
  have h0 : "".length = 0 := rfl
  simp only [String.length_append] at this
  omega

/-- C17: for every name and every non-empty sequence whose elements are all
sequences that each unify to the same type name `T`, `printSlice` returns
`"[]" ++ T`, so that a mapping field holding such a sequence of sequences gets
the type `"[][]" ++ T`; and when the last two inner sequences unify to different
type names (the elements before them classifying successfully) the result is the
marker `interface{}`. -/
theorem C17_sequence_of_sequences (o buf : Sink) (pfx name T Ta Tb : String)
    (s p : List (List Value)) (a b : List Value) :
    (s ≠ [] → (∀ inner ∈ s, (printSlice Sink.buffer (pfx ++ "\t") name inner).2 = .ok T) →
      (printSlice o pfx name (s.map .arr)).2 = .ok ("[]" ++ T)) ∧
    (s ≠ [] →
      (∀ inner ∈ s, (printSlice Sink.buffer (pfx ++ "\t" ++ "\t") name inner).2 = .ok T) →
      (structCase pfx name (.arr (s.map .arr)) buf).2 = .ok ("[][]" ++ T)) ∧
    ((∀ inner ∈ p, ∃ t, (printSlice Sink.buffer (pfx ++ "\t") name inner).2 = .ok t) →
      (printSlice Sink.buffer (pfx ++ "\t") name a).2 = .ok Ta →
      (printSlice Sink.buffer (pfx ++ "\t") name b).2 = .ok Tb → Ta ≠ Tb →
      (printSlice o pfx name (p.map .arr ++ [.arr a, .arr b])).2 = .ok anyType) := by
  refine ⟨fun hs h => ?_, fun hs h => ?_, fun hp ha hb hne => ?_⟩
  · refine printSlice_same_type o pfx name ("[]" ++ T) _ (by simpa using hs) (fun w hw => ?_)
    obtain ⟨inner, hi, rfl⟩ := List.mem_map.1 hw
    exact elemType_arr pfx name T inner (h inner hi)
  · have h1 : (printSlice Sink.buffer (pfx ++ "\t") name (s.map .arr)).2 = .ok ("[]" ++ T) := by
      refine printSlice_same_type _ _ name ("[]" ++ T) _ (by simpa using hs) (fun w hw => ?_)
      obtain ⟨inner, hi, rfl⟩ := List.mem_map.1 hw
      exact elemType_arr (pfx ++ "\t") name T inner (h inner hi)
    rw [structCase_arr_type pfx name ("[]" ++ T) _ buf h1, ← String.append_assoc]
    rfl
  · rw [printSlice_last_two o pfx name (p.map .arr) (.arr a) (.arr b) ("[]" ++ Ta) ("[]" ++ Tb)
      (fun v hv => by
        obtain ⟨inner, hi, rfl⟩ := List.mem_map.1 hv
        obtain ⟨t, ht⟩ := hp inner hi
        exact ⟨"[]" ++ t, elemType_arr pfx name t inner ht⟩)
      (elemType_arr pfx name Ta a ha) (elemType_arr pfx name Tb b hb)]
    simp [finishSlice, slice_type_ne_empty, slice_type_ne Ta Tb hne]

/-- C17, witness: the sequence `[[1, 2], [3]]` gives `[]float64`, a field
holding it gets `[][]float64`, and `[[1], ["x"]]` gives the marker. -/
theorem C17_sequence_of_sequences_witness :
    ([[Value.num .float64, .num .float64], [.num .float64]] ≠ [] ∧
      (∀ inner ∈ [[Value.num .float64, .num .float64], [.num .float64]],
        (printSlice Sink.buffer ("" ++ "\t") "xs" inner).2 = .ok "float64") ∧
      (printSlice Sink.buffer "" "xs"
        ([[Value.num .float64, .num .float64], [.num .float64]].map .arr)).2 =
        .ok ("[]" ++ "float64")) ∧
    ((∀ inner ∈ [[Value.num .float64, .num .float64], [.num .float64]],
        (printSlice Sink.buffer ("" ++ "\t" ++ "\t") "xs" inner).2 = .ok "float64") ∧
      (structCase "" "xs"
        (.arr ([[Value.num .float64, .num .float64], [.num .float64]].map .arr))
        Sink.buffer).2 = .ok ("[][]" ++ "float64")) ∧
    ((∀ inner ∈ ([] : List (List Value)),
        ∃ t, (printSlice Sink.buffer ("" ++ "\t") "xs" inner).2 = .ok t) ∧
      (printSlice Sink.buffer ("" ++ "\t") "xs" [.num .float64]).2 = .ok "float64" ∧
      (printSlice Sink.buffer ("" ++ "\t") "xs" [.str "x"]).2 = .ok "string" ∧
      "float64" ≠ "string" ∧
      (printSlice Sink.buffer "" "xs"
        (([] : List (List Value)).map .arr ++ [.arr [.num .float64], .arr [.str "x"]])).2 =
        .ok anyType) :=
  ⟨⟨by simp, fun inner hi => by
        simp only [List.mem_cons, List.mem_singleton, List.not_mem_nil, or_false] at hi
        rcases hi with rfl | rfl <;> rfl,
      (C17_sequence_of_sequences Sink.buffer Sink.buffer "" "xs" "float64" "" "" _ [] [] []).1
        (by simp) (fun inner hi => by
          simp only [List.mem_cons, List.mem_singleton, List.not_mem_nil, or_false] at hi
          rcases hi with rfl | rfl <;> rfl)⟩,
    ⟨fun inner hi => by
        simp only [List.mem_cons, List.mem_singleton, List.not_mem_nil, or_false] at hi
        rcases hi with rfl | rfl <;> rfl,
      (C17_sequence_of_sequences Sink.buffer Sink.buffer "" "xs" "float64" "" "" _ [] [] []).2.1
        (by simp) (fun inner hi => by
          simp only [List.mem_cons, List.mem_singleton, List.not_mem_nil, or_false] at hi
          rcases hi with rfl | rfl <;> rfl)⟩,
    ⟨fun inner hi => absurd hi (List.not_mem_nil inner), rfl, rfl, by decide,
      (C17_sequence_of_sequences Sink.buffer Sink.buffer "" "xs" "" "float64" "string" [] []
        [.num .float64] [.str "x"]).2.2
        (fun inner hi => absurd hi (List.not_mem_nil inner)) rfl rfl (by decide)⟩⟩


theorem toNat_ofNat_small (n : Nat) (h : n < 0xd800) : (Char.ofNat n).toNat = n := by
  unfold Char.ofNat
  have hv : n.isValidChar := Or.inl h
  simp only [hv, dite_true]
  unfold Char.ofNatAux Char.toNat
  simp [UInt32.toNat]

theorem toNat_ofNat_valid (m : Nat) :
    (Char.ofNat m).toNat = if m.isValidChar then m else 0 := by
  unfold Char.ofNat
  split
  · unfold Char.ofNatAux Char.toNat
    simp [UInt32.toNat]
  · rfl

theorem ofNat_eq_i (m : Nat) (h : Char.ofNat m = 'i') : m = 105 := by
  have h1 := toNat_ofNat_valid m
  rw [h] at h1
  have h105 : Char.toNat 'i' = 105 := by decide
  rw [h105] at h1
  split at h1 <;> omega

/-- No entry of the title case table reaches the code point of the lower case
letter `i`. -/
theorem titleRanges_avoid_i :
    titleRanges.all (fun e => decide (e.2.2.2 + (e.2.1 - e.1) < 105 ∨ 105 < e.2.2.2)) = true := by
  decide

theorem titleWide_ne_i (n : Nat) (hn : 0x7F < n) : titleWide n ≠ 105 := by
  unfold titleWide
  cases hf : titleRanges.find? fun e => e.1 ≤ n && n ≤ e.2.1 && (n - e.1) % e.2.2.1 == 0 with
  | none =>
    simp only []
    omega
  | some e =>
    simp only []
    have hmem := List.mem_of_find?_eq_some hf
    have hp := List.find?_some hf
    have ha := List.all_eq_true.1 titleRanges_avoid_i e hmem
    simp only [Bool.and_eq_true, decide_eq_true_eq] at hp ha
    omega

/-- No rune is mapped to the lower case letter `i` by `toTitle`. -/
theorem toTitle_ne_i (c : Char) : toTitle c ≠ 'i' := by
  intro h
  unfold toTitle at h
  split at h
  · unfold Char.toUpper at h
    simp only [] at h
    split at h
    · have := congrArg Char.toNat h
      rw [toNat_ofNat_small _ (by omega)] at this
      have h105 : Char.toNat 'i' = 105 := by decide
      omega
    · have h105 : c.toNat = 105 := by rw [h]; decide
      omega
  · rename_i hc
    exact titleWide_ne_i c.toNat (by omega) (ofNat_eq_i _ h)

/-- A record name returned by `printStruct` is never the marker `interface{}`:
the marker starts with a lower case letter. -/
theorem title_ne_anyType (name : String) : title name ≠ anyType := by
  intro h
  have hd := congrArg String.data h
  unfold title at hd
  simp only [] at hd
  cases hn : name.data with
  | nil =>
    rw [hn] at hd
    exact absurd hd (by decide)
  | cons c cs =>
    rw [hn, titleRunes] at hd
    have hsep : isSeparator ' ' = true := by decide
    rw [hsep] at hd
    simp only [if_true] at hd
    have hi : anyType.data = 'i' :: "nterface\x7b\x7d".data := by decide
    rw [hi] at hd
    injection hd with h1 _
    exact toTitle_ne_i c h1

/-- The type name of an element that is a mapping which renders successfully. -/
theorem elemType_obj (pfx name t : String) (m : List (String × Value))
    (h : (printStruct Sink.buffer (pfx ++ "\t") name m).2 = .ok t) :
    elemType pfx name (.obj m) = .ok (title name) := by
  obtain ⟨ht, -, -⟩ := printStruct_ok Sink.buffer (pfx ++ "\t") name m t h
  rw [elemType, sliceCase_obj, h, ht]

/-- C18: element types are compared by rendered name only.  For every name and
every non-empty sequence whose elements are all mappings that each render
successfully, `printSlice` returns the capitalized name `strings.Title(name)`,
which is never the marker `interface{}`, whatever the keys and the field types
of the mappings. -/
theorem C18_sequence_of_mappings (o : Sink) (pfx name : String)
    (ms : List (List (String × Value))) (hs : ms ≠ [])
    (h : ∀ m ∈ ms, ∃ t, (printStruct Sink.buffer (pfx ++ "\t") name m).2 = .ok t) :
    (printSlice o pfx name (ms.map .obj)).2 = .ok (title name) ∧
    (printSlice o pfx name (ms.map .obj)).2 ≠ .ok anyType := by
  have h1 : (printSlice o pfx name (ms.map .obj)).2 = .ok (title name) := by
    refine printSlice_same_type o pfx name (title name) _ (by simpa using hs) (fun w hw => ?_)
    obtain ⟨m, hm, rfl⟩ := List.mem_map.1 hw
    obtain ⟨t, ht⟩ := h m hm
    exact elemType_obj pfx name t m ht
  refine ⟨h1, ?_⟩
  rw [h1]
  intro h2
  injection h2 with h2
  exact title_ne_anyType name h2

/-- C18, witness: the sequence `[(a: 1), (b: "x")]` named `xs`, whose mappings
have different keys and field types, gives `Xs`. -/
theorem C18_sequence_of_mappings_witness :
    [[("a", Value.num .float64)], [("b", Value.str "x")]] ≠ [] ∧
    (∀ m ∈ [[("a", Value.num .float64)], [("b", Value.str "x")]],
      ∃ t, (printStruct Sink.buffer ("" ++ "\t") "xs" m).2 = .ok t) ∧
    (printSlice Sink.buffer "" "xs"
      ([[("a", Value.num .float64)], [("b", Value.str "x")]].map .obj)).2 = .ok "Xs" :=
  ⟨by simp, fun m hm => by
      simp only [List.mem_cons, List.mem_singleton, List.not_mem_nil, or_false] at hm
      rcases hm with rfl | rfl <;> exact ⟨"Xs", rfl⟩,
    (C18_sequence_of_mappings Sink.buffer "" "xs"
      [[("a", Value.num .float64)], [("b", Value.str "x")]] (by simp) (fun m hm => by
        simp only [List.mem_cons, List.mem_singleton, List.not_mem_nil, or_false] at hm
        rcases hm with rfl | rfl <;> exact ⟨"Xs", rfl⟩)).1⟩

/-- What the switch of `printStruct` sends to the buffer for one entry. -/
theorem structCase_nestedDecl (pfx k : String) (v : Value) :
    String.join (structCase pfx k v Sink.buffer).1.history = nestedDecl pfx (k, v) := by
  cases v with
  | null => rfl
  | bool b => rfl
  | num n => rfl
  | str x => rfl
  | arr s =>
    have h : (structCase pfx k (.arr s) Sink.buffer).1 = Sink.buffer := by
      rw [structCase_arr]
      have hw := printSlice_writer Sink.buffer (pfx ++ "\t") k s
      rcases hp : printSlice Sink.buffer (pfx ++ "\t") k s with ⟨b, r⟩
      rw [hp] at hw
      simp only [] at hw
      subst hw
      cases r <;> rfl
    rw [h]
    rfl
  | obj sub =>
    rw [structCase_obj, ← printStruct_buffer_data]
    rfl

/-- The nested declarations of a mapping are those of its entries, in order. -/
theorem nestedWrites_join (pfx : String) : ∀ (m : List (String × Value)),
    String.join (nestedWrites pfx m) = String.join (m.map (nestedDecl pfx))
  | [] => rfl
  | (k, v) :: rest => by
    rw [nestedWrites_cons, join_append, List.map_cons, join_cons, nestedWrites_join pfx rest,
      structCase_nestedDecl]

/-- C19: for every name and every mapping for which `printStruct` succeeds, the
writes it issues are the record's own opening line
`type <strings.Title(name)> struct {`, its field lines in order and its closing
line, and then, in one write, the declarations of the records nested directly in
its fields, in field order, so that these come only after the closing line; an
accepting writer holds what it held followed by that text, which begins with the
opening line; and the returned type name is `strings.Title(name)`. -/
theorem C19_preorder_emission (o : Sink) (pfx name : String) (m : List (String × Value))
    (t : String) (h : (printStruct o pfx name m).2 = .ok t) :
    t = title name ∧
    (printStruct o pfx name m).1.history =
      o.history ++ ("type " ++ title name ++ " struct \x7b\n") ::
        ((m.map fun kv => "\t" ++ pfx ++ title kv.1 ++ " " ++ fieldTypeName pfx kv.1 kv.2 ++
            " `json:" ++ quote kv.1 ++ "`\n") ++
          ("\x7d `json:" ++ quote name ++ "`\n\n") ::
            (if String.join (m.map (nestedDecl pfx)) = "" then []
             else [String.join (m.map (nestedDecl pfx))])) ∧
    (o.Accepting →
      (printStruct o pfx name m).1.data =
        o.data ++ (("type " ++ title name ++ " struct \x7b\n") ++
          String.join (m.map fun kv => "\t" ++ pfx ++ title kv.1 ++ " " ++
            fieldTypeName pfx kv.1 kv.2 ++ " `json:" ++ quote kv.1 ++ "`\n") ++
          ("\x7d `json:" ++ quote name ++ "`\n\n") ++
          String.join (m.map (nestedDecl pfx)))) ∧
    (∀ kv ∈ m, ∀ sub, kv.2 = .obj sub →
      nestedDecl pfx kv = (printStruct Sink.buffer (pfx ++ "\t") kv.1 sub).1.data) ∧
    (∀ kv ∈ m, (∀ sub, kv.2 ≠ .obj sub) → nestedDecl pfx kv = "") := by
  obtain ⟨ht, -, hh⟩ := printStruct_ok o pfx name m t h
  rw [nestedWrites_join] at hh
  refine ⟨ht, hh, fun ho => ?_, fun kv _ sub hs => ?_, fun kv _ hs => ?_⟩
  · rw [printStruct_ok_data o pfx name m t ho h, nestedWrites_join]
    rfl
  · obtain ⟨k, v⟩ := kv
    simp only [] at hs
    subst hs
    rfl
  · obtain ⟨k, v⟩ := kv
    cases v with
    | obj sub => exact absurd rfl (hs sub)
    | null => rfl
    | bool b => rfl
    | num n => rfl
    | str x => rfl
    | arr l => rfl

/-- C19, witness: the mapping `a: (x: 1), n: 2, b: (y: "s")` on a fresh buffer:
the declarations of `A` and `B` follow the closing line of the root, in that
order. -/
theorem C19_preorder_emission_witness :
    (printStruct Sink.buffer "" "root"
      [("a", .obj [("x", .num .float64)]), ("n", .num .float64),
        ("b", .obj [("y", .str "s")])]).2 = .ok "Root" ∧
    (printStruct Sink.buffer "" "root"
      [("a", .obj [("x", .num .float64)]), ("n", .num .float64),
        ("b", .obj [("y", .str "s")])]).1.history =
      ["type Root struct \x7b\n", "\tA A `json:\"a\"`\n", "\tN float64 `json:\"n\"`\n",
        "\tB B `json:\"b\"`\n", "\x7d `json:\"root\"`\n\n",
        "type A struct \x7b\n\t\tX float64 `json:\"x\"`\n\x7d `json:\"a\"`\n\n" ++
          "type B struct \x7b\n\t\tY string `json:\"y\"`\n\x7d `json:\"b\"`\n\n"] ∧
    "Root" = title "root" :=
  ⟨rfl, by decide,
    (C19_preorder_emission Sink.buffer "" "root"
      [("a", .obj [("x", .num .float64)]), ("n", .num .float64),
        ("b", .obj [("y", .str "s")])] "Root" rfl).1⟩

theorem flatMap_quoteRune_plain : ∀ (l : List Char), (∀ c ∈ l, quoteRune c = [c]) →
    l.flatMap quoteRune = l
  | [], _ => rfl
  | c :: cs, h => by
    rw [List.flatMap_cons, h c (by simp),
      flatMap_quoteRune_plain cs (fun x hx => h x (List.mem_cons_of_mem _ hx))]
    rfl

/-- The verb `%q` puts a string without special runes between double quotes,
unchanged. -/
theorem quote_plain (s : String) (h : ∀ c ∈ s.data, quoteRune c = [c]) :
    quote s = "\"" ++ s ++ "\"" := by
  apply String.ext
  rw [quote, flatMap_quoteRune_plain s.data h]
  simp [String.data_append]

/-- C13: for every mapping that renders successfully, the field line written
for each entry carries the tag `json:` followed by the `%q` rendering of the
entry's original key (not of its capitalized form), and the closing line of the
record carries the tag `json:` followed by the `%q` rendering of the record's
name as passed in (not capitalized); for a key or name without special runes that
rendering is the key or name itself between double quotes. -/
theorem C13_tags_carry_original_key (o : Sink) (pfx name : String)
    (m : List (String × Value)) (t : String) (h : (printStruct o pfx name m).2 = .ok t) :
    (∀ kv ∈ m, ∃ t1, (structCase pfx kv.1 kv.2 Sink.buffer).2 = .ok t1 ∧
      "\t" ++ pfx ++ title kv.1 ++ " " ++ t1 ++ " `json:" ++ quote kv.1 ++ "`\n" ∈
        (printStruct o pfx name m).1.history) ∧
    "\x7d `json:" ++ quote name ++ "`\n\n" ∈ (printStruct o pfx name m).1.history ∧
    (∀ s : String, (∀ c ∈ s.data, quoteRune c = [c]) → quote s = "\"" ++ s ++ "\"") := by
  obtain ⟨-, hall, hh⟩ := printStruct_ok o pfx name m t h
  refine ⟨fun kv hkv => ?_, ?_, quote_plain⟩
  · obtain ⟨t1, ht1⟩ := hall kv hkv
    refine ⟨t1, ht1, ?_⟩
    rw [hh]
    apply List.mem_append_right
    apply List.mem_cons_of_mem
    apply List.mem_append_left
    apply List.mem_map.2
    refine ⟨kv, hkv, ?_⟩
    simp [fieldLine, fieldTypeName, ht1]
  · rw [hh]
    apply List.mem_append_right
    apply List.mem_cons_of_mem
    apply List.mem_append_right
    exact List.mem_cons_self _ _

/-- C13, witness: the mapping `name: "Ann"` rendered under the name `person`:
the field line is tagged `name` and the closing line `person`. -/
theorem C13_tags_carry_original_key_witness :
    (printStruct Sink.buffer "" "person" [("name", .str "Ann")]).2 = .ok "Person" ∧
    (∀ kv ∈ [("name", Value.str "Ann")], ∃ t1, (structCase "" kv.1 kv.2 Sink.buffer).2 = .ok t1 ∧
      "\t" ++ "" ++ title kv.1 ++ " " ++ t1 ++ " `json:" ++ quote kv.1 ++ "`\n" ∈
        (printStruct Sink.buffer "" "person" [("name", .str "Ann")]).1.history) ∧
    "\x7d `json:" ++ quote "person" ++ "`\n\n" ∈
      (printStruct Sink.buffer "" "person" [("name", .str "Ann")]).1.history ∧
    quote "name" = "\"name\"" ∧ quote "person" = "\"person\"" :=
  ⟨rfl,
    (C13_tags_carry_original_key Sink.buffer "" "person" [("name", .str "Ann")] "Person" rfl).1,
    (C13_tags_carry_original_key Sink.buffer "" "person" [("name", .str "Ann")] "Person" rfl).2.1,
    by decide, by decide⟩

theorem titleRunes_length : ∀ (prev : Char) (l : List Char), (titleRunes prev l).length = l.length
  | _, [] => rfl
  | prev, r :: rs => by
    rw [titleRunes, List.length_cons, List.length_cons, titleRunes_length r rs]

/-- The rune loop of `strings.Title` maps a rune to title case exactly when the
rune before it is a separator. -/
theorem titleRunes_next : ∀ (prev : Char) (l : List Char) (i : Nat) (a b : Char),
    l[i]? = some a → l[i + 1]? = some b →
    (titleRunes prev l)[i + 1]? = some (if isSeparator a then toTitle b else b)
  | _, [], i, a, b, h, _ => by simp at h
  | prev, r :: rs, 0, a, b, h, h1 => by
    simp only [List.getElem?_cons_zero, Option.some.injEq] at h
    subst h
    cases rs with
    | nil => simp at h1
    | cons x xs =>
      simp only [zero_add, List.getElem?_cons_succ, List.getElem?_cons_zero,
        Option.some.injEq] at h1
      subst h1
      simp [titleRunes]
  | prev, r :: rs, i + 1, a, b, h, h1 => by
    simp only [List.getElem?_cons_succ] at h h1
    rw [titleRunes, List.getElem?_cons_succ]
    exact titleRunes_next r rs i a b h h1

/-- The rune loop of `strings.Title` on a word: without separator in `prev` or in
the runes, nothing changes. -/
theorem titleRunes_word : ∀ (prev : Char) (l : List Char), isSeparator prev = false →
    (∀ c ∈ l, isSeparator c = false) → titleRunes prev l = l
  | _, [], _, _ => rfl
  | prev, r :: rs, hp, h => by
    rw [titleRunes, hp, titleRunes_word r rs (h r (by simp))
      (fun c hc => h c (List.mem_cons_of_mem _ hc))]
    simp

/-- The separators of `strings.Title`, rune by rune. -/
theorem isSeparator_iff (r : Char) :
    isSeparator r = true ↔
      (r.toNat ≤ 0x7F ∧ r.isAlphanum = false ∧ r ≠ '_') ∨
      (0x7F < r.toNat ∧
        (r.toNat = 0x85 ∨ r.toNat = 0xA0 ∨ r.toNat = 0x1680 ∨
          (0x2000 ≤ r.toNat ∧ r.toNat ≤ 0x200A) ∨ r.toNat = 0x2028 ∨ r.toNat = 0x2029 ∨
          r.toNat = 0x202F ∨ r.toNat = 0x205F ∨ r.toNat = 0x3000)) := by
  unfold isSeparator
  split
  · rename_i h
    have h2 : ¬ 0x7F < r.toNat := by omega
    simp only [h, h2, true_and, false_and, or_false]
    cases hd : r.isDigit <;> cases hl : r.isLower <;> cases hu : r.isUpper <;>
      simp [Char.isAlphanum, Char.isAlpha, hd, hl, hu]
  · rename_i h
    have h2 : 0x7F < r.toNat := by omega
    simp only [h, h2, true_and, false_and, false_or]
    simp only [isSpaceWide, Bool.or_eq_true, Bool.and_eq_true, beq_iff_eq, decide_eq_true_eq]
    tauto

/-- The title case of an ASCII rune: upper case for `a` to `z`, the rune itself
otherwise. -/
theorem toTitle_ascii (r : Char) (h : r.toNat ≤ 0x7F) :
    (toTitle r).toNat = if 97 ≤ r.toNat ∧ r.toNat ≤ 122 then r.toNat - 32 else r.toNat := by
  unfold toTitle
  rw [if_pos h]
  unfold Char.toUpper
  simp only [ge_iff_le]
  split
  · rw [toNat_ofNat_small _ (by omega)]
  · rfl

/-- C11 (amended): for every key `k` of a mapping that renders successfully, the
display name written on its field line is `strings.Title(k)`, and the name in
the opening line `type <Name> struct {` is `strings.Title(name)`.  That function
keeps the length of the string; it maps to title case the first character and
every character that follows a separator, and leaves every other character
unchanged.  A separator is an ASCII character that is not a letter, a digit or
an underscore, or one of the white space characters above U+007F; the title case
of an ASCII character is its upper case for `a` to `z` and the character itself
otherwise.  On a string without separator only the first character is mapped. -/
theorem C11_display_name_is_title (o : Sink) (pfx name : String) (m : List (String × Value))
    (t : String) (h : (printStruct o pfx name m).2 = .ok t) :
    (∀ kv ∈ m, ∃ t1, (structCase pfx kv.1 kv.2 Sink.buffer).2 = .ok t1 ∧
      "\t" ++ pfx ++ title kv.1 ++ " " ++ t1 ++ " `json:" ++ quote kv.1 ++ "`\n" ∈
        (printStruct o pfx name m).1.history) ∧
    "type " ++ title name ++ " struct \x7b\n" ∈ (printStruct o pfx name m).1.history ∧
    (∀ s : String,
      (title s).length = s.length ∧
      (∀ c cs, s.data = c :: cs → (title s).data.head? = some (toTitle c)) ∧
      (∀ i a b, s.data[i]? = some a → s.data[i + 1]? = some b →
        (title s).data[i + 1]? = some (if isSeparator a then toTitle b else b)) ∧
      ((∀ c ∈ s.data, isSeparator c = false) → title s = capitalizeFirst s)) ∧
    (∀ r : Char, isSeparator r = true ↔
      (r.toNat ≤ 0x7F ∧ r.isAlphanum = false ∧ r ≠ '_') ∨
      (0x7F < r.toNat ∧
        (r.toNat = 0x85 ∨ r.toNat = 0xA0 ∨ r.toNat = 0x1680 ∨
          (0x2000 ≤ r.toNat ∧ r.toNat ≤ 0x200A) ∨ r.toNat = 0x2028 ∨ r.toNat = 0x2029 ∨
          r.toNat = 0x202F ∨ r.toNat = 0x205F ∨ r.toNat = 0x3000))) ∧
    (∀ r : Char, r.toNat ≤ 0x7F →
      (toTitle r).toNat =
        if 97 ≤ r.toNat ∧ r.toNat ≤ 122 then r.toNat - 32 else r.toNat) := by
  obtain ⟨-, hall, hh⟩ := printStruct_ok o pfx name m t h
  refine ⟨fun kv hkv => ?_, ?_, fun s => ⟨?_, ?_, ?_, ?_⟩, isSeparator_iff, toTitle_ascii⟩
  · obtain ⟨t1, ht1⟩ := hall kv hkv
    refine ⟨t1, ht1, ?_⟩
    rw [hh]
    apply List.mem_append_right
    apply List.mem_cons_of_mem
    apply List.mem_append_left
    apply List.mem_map.2
    refine ⟨kv, hkv, ?_⟩
    simp [fieldLine, fieldTypeName, ht1]
  · rw [hh]
    apply List.mem_append_right
    exact List.mem_cons_self _ _
  · show (titleRunes ' ' s.data).length = s.data.length
    exact titleRunes_length ' ' s.data
  · intro c cs hs
    simp only [title, hs, titleRunes]
    have hsep : isSeparator ' ' = true := by decide
    simp [hsep]
  · intro i a b ha hb
    exact titleRunes_next ' ' s.data i a b ha hb
  · intro hw
    unfold title capitalizeFirst
    cases hs : s.data with
    | nil => rfl
    | cons c cs =>
      have hsep : isSeparator ' ' = true := by decide
      rw [hs] at hw
      simp only [titleRunes, hsep, if_true]
      rw [titleRunes_word c cs (hw c (by simp)) (fun x hx => hw x (List.mem_cons_of_mem _ hx))]

/-- C11, witness: the mapping `first name: "Ann"` rendered under the name
`person`; the key `user_id` has no separator and gets its first character
uppercased only; a dash above U+007F is no separator, and the title case of a
letter above U+007F comes from the case table. -/
theorem C11_display_name_is_title_witness :
    (printStruct Sink.buffer "" "person" [("first name", .str "Ann")]).2 = .ok "Person" ∧
    "type " ++ title "person" ++ " struct \x7b\n" ∈
      (printStruct Sink.buffer "" "person" [("first name", .str "Ann")]).1.history ∧
    (∀ c ∈ "user_id".data, isSeparator c = false) ∧
    title "user_id" = capitalizeFirst "user_id" ∧
    capitalizeFirst "user_id" = "User_id" ∧
    title "a—b" = "A—b" ∧
    title "élan vital" = "Élan Vital" :=
  ⟨rfl,
    (C11_display_name_is_title Sink.buffer "" "person" [("first name", .str "Ann")]
      "Person" rfl).2.1,
    by decide,
    ((C11_display_name_is_title Sink.buffer "" "person" [("first name", .str "Ann")]
      "Person" rfl).2.2.1 "user_id").2.2.2 (by decide),
    by decide, by decide, by decide⟩

/-- C11, counterexample: for the keys `first name` and `a-b` the display name is
not the key with only its first character uppercased: `strings.Title` gives
`First Name` and `A-B`, and these are what `printStruct` writes on the field
lines and, for a record of that name, on the opening line. -/
theorem C11_counterexample :
    title "first name" = "First Name" ∧
    capitalizeFirst "first name" = "First name" ∧
    title "first name" ≠ capitalizeFirst "first name" ∧
    title "a-b" = "A-B" ∧
    capitalizeFirst "a-b" = "A-b" ∧
    title "a-b" ≠ capitalizeFirst "a-b" ∧
    (printStruct Sink.buffer "" "first name" [("a-b", .str "x")]).2 = .ok "First Name" ∧
    (printStruct Sink.buffer "" "first name" [("a-b", .str "x")]).1.data =
      "type First Name struct \x7b\n" ++
      "\tA-B string `json:\"a-b\"`\n" ++
      "\x7d `json:\"first name\"`\n\n" := by
  refine ⟨by decide, by decide, by decide, by decide, by decide, by decide, rfl, by decide⟩

end Genstruct
